import Mathlib

namespace MpApi

/-!
# Verification of the mp-api binary scientific-object retrieval pipeline

This development shallowly embeds the core of
`src/mp_api/routes/electronic_structure.py`:

* the multi-stage decode chain used by
  `BandStructureRester.get_bandstructure_from_material_id` and
  `DosRester.get_dos_from_material_id`
  (`base64.b64decode(_, validate=True)` → `zlib.decompress` →
  `msgpack.unpackb(_, raw=False)` → `MontyDecoder().process_decoded(_["data"])`),
* the task-resolution logic of those two methods, and
* the object fetchers `get_bandstructure_from_task_id` /
  `get_dos_from_task_id`.

The external libraries invoked by the source (CPython `base64`/`binascii`,
`zlib`, `msgpack`, monty's `MontyDecoder` together with the pymatgen domain
classes) are not part of the repository; they are modelled here from their
documented wire formats and from the behaviour the source relies on, at the
level of fidelity the verified properties need:

* base64 is modelled with the strict validation contract of
  `base64.b64decode(s, validate=True)` (non-alphabet characters and incorrect
  padding are rejected);
* the zlib layer is modelled on the zlib container format (RFC 1950) with
  DEFLATE stored (uncompressed) blocks (RFC 1951 §3.2.4) and the Adler-32
  checksum — the fragment sufficient to express the round-trip and
  error-propagation properties of the chain;
* msgpack is modelled byte-exactly for the nil/bool/int/str/array/map
  families of the MessagePack specification (floats, bin, and ext types are
  outside the fragment exercised by the payloads);
* `MontyDecoder.process_decoded` is modelled as a closed registry of
  `(@module, @class)` tags mapped to typed constructors for the domain
  classes appearing in these payloads (Lattice, Dos, BandStructure,
  BandStructureSymmLine, CompleteDos).

Machine integers do not occur: all quantities are `Nat`/`Int`, with `% 256`
etc. written explicitly where the wire format demands bytes.
-/

/-! ## Byte-level utilities -/

/-- Write `k` bytes of `n` in big-endian order (most significant first). -/
def writeBE : Nat → Nat → List Nat
  | 0, _ => []
  | k + 1, n => n / 256 ^ k :: writeBE k (n % 256 ^ k)

/-- Read `k` bytes in big-endian order from the front of a list,
returning the value and the remaining bytes. -/
def readBE : Nat → List Nat → Option (Nat × List Nat)
  | 0, s => some (0, s)
  | _ + 1, [] => none
  | k + 1, b :: s => (readBE k s).map (fun p => (b * 256 ^ k + p.1, p.2))

/-! ## Base64 (strict)

Models CPython `base64.b64decode(s, validate=True)` as used at
`electronic_structure.py:333` and `:492`: every character must belong to the
standard base64 alphabet or be `'='` padding, padding may occur only as the
final one or two characters of the final 4-character group, and the input
length must be a multiple of 4.  An input violating any of these yields no
result (the orchestrator surfaces this as the `malformedEncoding` stage
error). -/

/-- The standard base64 alphabet, sextet → character. -/
def b64chr (n : Nat) : Char :=
  if n < 26 then Char.ofNat (65 + n)
  else if n < 52 then Char.ofNat (97 + (n - 26))
  else if n < 62 then Char.ofNat (48 + (n - 52))
  else if n = 62 then '+'
  else '/'

/-- Character → sextet; `none` for characters outside the base64 alphabet
(including `'='`). -/
def b64sext (c : Char) : Option Nat :=
  if 65 ≤ c.toNat ∧ c.toNat ≤ 90 then some (c.toNat - 65)
  else if 97 ≤ c.toNat ∧ c.toNat ≤ 122 then some (26 + (c.toNat - 97))
  else if 48 ≤ c.toNat ∧ c.toNat ≤ 57 then some (52 + (c.toNat - 48))
  else if c = '+' then some 62
  else if c = '/' then some 63
  else none

/-- Standard base64 encoding of a byte sequence (canonical padding). -/
def b64encode : List Nat → List Char
  | [] => []
  | [b0] => [b64chr (b0 / 4), b64chr (b0 % 4 * 16), '=', '=']
  | [b0, b1] =>
      [b64chr (b0 / 4), b64chr (b0 % 4 * 16 + b1 / 16), b64chr (b1 % 16 * 4), '=']
  | b0 :: b1 :: b2 :: rest =>
      b64chr (b0 / 4) :: b64chr (b0 % 4 * 16 + b1 / 16) ::
      b64chr (b1 % 16 * 4 + b2 / 64) :: b64chr (b2 % 64) :: b64encode rest

/-- Strict base64 decoding (the `validate=True` contract): processes the
input in 4-character groups; rejects non-alphabet characters, misplaced or
non-final padding, and lengths that are not multiples of 4. -/
def b64decodeStrict : List Char → Option (List Nat)
  | [] => some []
  | c0 :: c1 :: c2 :: c3 :: rest =>
    match b64sext c0, b64sext c1 with
    | some s0, some s1 =>
      if c3 = '=' then
        if rest = [] then
          if c2 = '=' then some [s0 * 4 + s1 / 16]
          else
            match b64sext c2 with
            | some s2 => some [s0 * 4 + s1 / 16, s1 % 16 * 16 + s2 / 4]
            | none => none
        else none
      else
        match b64sext c2, b64sext c3 with
        | some s2, some s3 =>
          (b64decodeStrict rest).map
            (fun tl => (s0 * 4 + s1 / 16) :: (s1 % 16 * 16 + s2 / 4) ::
                       (s2 % 4 * 64 + s3) :: tl)
        | _, _ => none
    | _, _ => none
  | _ => none

/-! ## zlib (stored blocks)

Models `zlib.compress`/`zlib.decompress` as used at
`electronic_structure.py:334` and `:493`, restricted to the DEFLATE
*stored* (uncompressed) block type of RFC 1951 §3.2.4 inside the RFC 1950
zlib container with its Adler-32 trailer.  A stored block is byte-aligned:
its 3 header bits (BFINAL, BTYPE=00) together with the padding to the byte
boundary occupy exactly one byte, followed by LEN and NLEN (one's
complement of LEN) as 16-bit little-endian values and LEN literal bytes.
Compressed (Huffman-coded) block types are outside the modelled fragment
and are rejected by the model's inflater. -/

/-- One step of the Adler-32 fold: running sums `(a, b)` modulo 65521. -/
def adlerStep (ab : Nat × Nat) (b : Nat) : Nat × Nat :=
  ((ab.1 + b) % 65521, (ab.2 + (ab.1 + b) % 65521) % 65521)

/-- Adler-32 checksum (RFC 1950 §8.2). -/
def adler32 (d : List Nat) : Nat :=
  (d.foldl adlerStep (1, 0)).2 * 65536 + (d.foldl adlerStep (1, 0)).1

/-- 16-bit little-endian encoding. -/
def writeLE16 (n : Nat) : List Nat := [n % 256, n / 256 % 256]

/-- Deflate a byte sequence as a sequence of stored blocks of at most
65535 bytes each. -/
def deflateStored (d : List Nat) : List Nat :=
  if d.length ≤ 65535 then
    1 :: (writeLE16 d.length ++ writeLE16 (65535 - d.length) ++ d)
  else
    0 :: (writeLE16 65535 ++ writeLE16 0 ++ d.take 65535 ++
          deflateStored (d.drop 65535))
  termination_by d.length
  decreasing_by simp only [List.length_drop]; omega

/-- Inflate a sequence of stored DEFLATE blocks, returning the decompressed
data and the bytes following the final block.  Per RFC 1951 the block
header's padding bits are ignored; any block type other than stored (00)
is outside the modelled fragment and yields no result. -/
def inflateBlocks : Nat → List Nat → Option (List Nat × List Nat)
  | 0, _ => none
  | _ + 1, [] => none
  | fuel + 1, h :: rest =>
    if h / 2 % 4 = 0 then
      match rest with
      | l0 :: l1 :: n0 :: n1 :: rest' =>
        if n0 + 256 * n1 = 65535 - (l0 + 256 * l1) ∧
           l0 + 256 * l1 ≤ rest'.length then
          if h % 2 = 1 then
            some (rest'.take (l0 + 256 * l1), rest'.drop (l0 + 256 * l1))
          else
            (inflateBlocks fuel (rest'.drop (l0 + 256 * l1))).map
              (fun p => (rest'.take (l0 + 256 * l1) ++ p.1, p.2))
        else none
      | _ => none
    else none

/-- zlib-compress with stored blocks: the RFC 1950 container
(CMF = 0x78, FLG = 0x01, no preset dictionary) around the stored-block
deflate stream, followed by the big-endian Adler-32 of the payload. -/
def zlibCompressStored (d : List Nat) : List Nat :=
  120 :: 1 :: (deflateStored d ++ writeBE 4 (adler32 d))

/-- zlib-decompress (`zlib.decompress`): check the container header
(compression method 8, valid FCHECK, no preset dictionary), inflate the
DEFLATE stream, and verify the Adler-32 trailer; any violation (including
trailing data after the checksum) yields no result. -/
def zlibDecompress (s : List Nat) : Option (List Nat) :=
  match s with
  | cmf :: flg :: rest =>
    if cmf % 16 = 8 ∧ (cmf * 256 + flg) % 31 = 0 ∧ flg / 32 % 2 = 0 then
      match inflateBlocks (rest.length + 1) rest with
      | some (d, rest') =>
        match readBE 4 rest' with
        | some (a, []) => if a = adler32 d then some d else none
        | _ => none
      | none => none
    else none
  | _ => none

/-! ## MessagePack

Models `msgpack.packb` / `msgpack.unpackb(_, raw=False)` as used at
`electronic_structure.py:335` and `:494`, byte-exactly for the
nil/bool/int/str/array/map families of the MessagePack specification.
Strings are represented by their UTF-8 byte sequences.  Float, bin and ext
formats are outside the fragment exercised by the stored payloads and the
unpacker yields no result for them (the orchestrator surfaces this as the
`deserializationError` stage error). -/

/-- The generic key-value structure produced by `msgpack.unpackb`:
Python None/bool/int/str/list/dict values. -/
inductive MsgValue where
  | nilV : MsgValue
  | boolV : Bool → MsgValue
  | intV : Int → MsgValue
  | strV : List Nat → MsgValue
  | arrV : List MsgValue → MsgValue
  | mapV : List (MsgValue × MsgValue) → MsgValue

/-- Pack an integer using the smallest MessagePack int format
(as the msgpack packer does); integers outside the 64-bit signed/unsigned
range are unrepresentable. -/
def packInt (n : Int) : Option (List Nat) :=
  if 0 ≤ n then
    if n.toNat < 128 then some [n.toNat]
    else if n.toNat < 256 then some [204, n.toNat]
    else if n.toNat < 65536 then some (205 :: writeBE 2 n.toNat)
    else if n.toNat < 4294967296 then some (206 :: writeBE 4 n.toNat)
    else if n.toNat < 18446744073709551616 then
      some (207 :: writeBE 8 n.toNat)
    else none
  else
    if -32 ≤ n then some [(n + 256).toNat]
    else if -128 ≤ n then some [208, (n + 256).toNat]
    else if -32768 ≤ n then some (209 :: writeBE 2 (n + 65536).toNat)
    else if -2147483648 ≤ n then some (210 :: writeBE 4 (n + 4294967296).toNat)
    else if -9223372036854775808 ≤ n then
      some (211 :: writeBE 8 (n + 18446744073709551616).toNat)
    else none

/-- Pack a (UTF-8) string body using the smallest str format. -/
def packStr (s : List Nat) : Option (List Nat) :=
  if s.length < 32 then some ((160 + s.length) :: s)
  else if s.length < 256 then some (217 :: s.length :: s)
  else if s.length < 65536 then some (218 :: (writeBE 2 s.length ++ s))
  else if s.length < 4294967296 then some (219 :: (writeBE 4 s.length ++ s))
  else none

mutual

/-- `msgpack.packb` on the modelled value fragment. -/
def packVal : MsgValue → Option (List Nat)
  | .nilV => some [192]
  | .boolV false => some [194]
  | .boolV true => some [195]
  | .intV n => packInt n
  | .strV s => packStr s
  | .arrV xs =>
    (packElems xs).bind (fun body =>
      if xs.length < 16 then some ((144 + xs.length) :: body)
      else if xs.length < 65536 then some (220 :: (writeBE 2 xs.length ++ body))
      else if xs.length < 4294967296 then
        some (221 :: (writeBE 4 xs.length ++ body))
      else none)
  | .mapV kvs =>
    (packPairs kvs).bind (fun body =>
      if kvs.length < 16 then some ((128 + kvs.length) :: body)
      else if kvs.length < 65536 then
        some (222 :: (writeBE 2 kvs.length ++ body))
      else if kvs.length < 4294967296 then
        some (223 :: (writeBE 4 kvs.length ++ body))
      else none)

/-- Pack the elements of an array, concatenated. -/
def packElems : List MsgValue → Option (List Nat)
  | [] => some []
  | x :: xs =>
    (packVal x).bind (fun bx => (packElems xs).map (fun bxs => bx ++ bxs))

/-- Pack the key-value pairs of a map, concatenated. -/
def packPairs : List (MsgValue × MsgValue) → Option (List Nat)
  | [] => some []
  | (k, v) :: kvs =>
    (packVal k).bind (fun bk => (packVal v).bind (fun bv =>
      (packPairs kvs).map (fun bkvs => bk ++ bv ++ bkvs)))

end

mutual

/-- Well-formedness of a value destined for the byte-level pipeline: all
string bodies consist of bytes (< 256). -/
def MsgValue.wfB : MsgValue → Bool
  | .nilV => true
  | .boolV _ => true
  | .intV _ => true
  | .strV s => s.all (fun b => b < 256)
  | .arrV xs => wfBElems xs
  | .mapV kvs => wfBPairs kvs

def wfBElems : List MsgValue → Bool
  | [] => true
  | x :: xs => x.wfB && wfBElems xs

def wfBPairs : List (MsgValue × MsgValue) → Bool
  | [] => true
  | (k, v) :: kvs => k.wfB && v.wfB && wfBPairs kvs

end

/-- Interpret `k`-byte two's complement. -/
def ofTwos (m M : Nat) : Int := if 2 * m ≥ M then (m : Int) - M else (m : Int)

/-- Take exactly `n` bytes from the front. -/
def takeExact (n : Nat) (s : List Nat) : Option (List Nat × List Nat) :=
  if n ≤ s.length then some (s.take n, s.drop n) else none

mutual

/-- Fuel-indexed MessagePack parser: one value from the front of the
input, returning the value and the remaining bytes. -/
def parseV : Nat → List Nat → Option (MsgValue × List Nat)
  | 0, _ => none
  | _ + 1, [] => none
  | f + 1, b :: s =>
    if b < 128 then some (.intV b, s)
    else if b < 144 then
      (parsePairs f (b - 128) s).map (fun p => (.mapV p.1, p.2))
    else if b < 160 then
      (parseElems f (b - 144) s).map (fun p => (.arrV p.1, p.2))
    else if b < 192 then
      (takeExact (b - 160) s).map (fun p => (.strV p.1, p.2))
    else if b = 192 then some (.nilV, s)
    else if b = 194 then some (.boolV false, s)
    else if b = 195 then some (.boolV true, s)
    else if b = 204 then (readBE 1 s).map (fun p => (.intV p.1, p.2))
    else if b = 205 then (readBE 2 s).map (fun p => (.intV p.1, p.2))
    else if b = 206 then (readBE 4 s).map (fun p => (.intV p.1, p.2))
    else if b = 207 then (readBE 8 s).map (fun p => (.intV p.1, p.2))
    else if b = 208 then
      (readBE 1 s).map (fun p => (.intV (ofTwos p.1 256), p.2))
    else if b = 209 then
      (readBE 2 s).map (fun p => (.intV (ofTwos p.1 65536), p.2))
    else if b = 210 then
      (readBE 4 s).map (fun p => (.intV (ofTwos p.1 4294967296), p.2))
    else if b = 211 then
      (readBE 8 s).map (fun p => (.intV (ofTwos p.1 18446744073709551616), p.2))
    else if b = 217 then
      (readBE 1 s).bind (fun p =>
        (takeExact p.1 p.2).map (fun q => (.strV q.1, q.2)))
    else if b = 218 then
      (readBE 2 s).bind (fun p =>
        (takeExact p.1 p.2).map (fun q => (.strV q.1, q.2)))
    else if b = 219 then
      (readBE 4 s).bind (fun p =>
        (takeExact p.1 p.2).map (fun q => (.strV q.1, q.2)))
    else if b = 220 then
      (readBE 2 s).bind (fun p =>
        (parseElems f p.1 p.2).map (fun q => (.arrV q.1, q.2)))
    else if b = 221 then
      (readBE 4 s).bind (fun p =>
        (parseElems f p.1 p.2).map (fun q => (.arrV q.1, q.2)))
    else if b = 222 then
      (readBE 2 s).bind (fun p =>
        (parsePairs f p.1 p.2).map (fun q => (.mapV q.1, q.2)))
    else if b = 223 then
      (readBE 4 s).bind (fun p =>
        (parsePairs f p.1 p.2).map (fun q => (.mapV q.1, q.2)))
    else if b < 256 then some (.intV ((b : Int) - 256), s)
    else none

/-- Parse `n` consecutive values (array elements). -/
def parseElems : Nat → Nat → List Nat → Option (List MsgValue × List Nat)
  | _, 0, s => some ([], s)
  | 0, _ + 1, _ => none
  | f + 1, n + 1, s =>
    (parseV f s).bind (fun p =>
      (parseElems f n p.2).map (fun q => (p.1 :: q.1, q.2)))

/-- Parse `n` consecutive key-value pairs (map entries). -/
def parsePairs : Nat → Nat → List Nat →
    Option (List (MsgValue × MsgValue) × List Nat)
  | _, 0, s => some ([], s)
  | 0, _ + 1, _ => none
  | f + 1, n + 1, s =>
    (parseV f s).bind (fun p =>
      (parseV f p.2).bind (fun p' =>
        (parsePairs f n p'.2).map (fun q => ((p.1, p'.1) :: q.1, q.2))))

end

mutual

/-- Fuel needed by `parseV` to parse the packed form of a value. -/
def needFuel : MsgValue → Nat
  | .nilV => 1
  | .boolV _ => 1
  | .intV _ => 1
  | .strV _ => 1
  | .arrV xs => 1 + needFuelElems xs
  | .mapV kvs => 1 + needFuelPairs kvs

def needFuelElems : List MsgValue → Nat
  | [] => 0
  | x :: xs => 1 + needFuel x + needFuelElems xs

def needFuelPairs : List (MsgValue × MsgValue) → Nat
  | [] => 0
  | (k, v) :: kvs => 1 + needFuel k + needFuel v + needFuelPairs kvs

end

/-- `msgpack.unpackb`: parse one value and require that it consumes the
whole input (msgpack raises `ExtraData` on trailing bytes). -/
def msgUnpack (s : List Nat) : Option MsgValue :=
  match parseV (2 * s.length + 1) s with
  | some (v, []) => some v
  | _ => none

/-! ## Domain objects and polymorphic reconstruction

Models `MontyDecoder().process_decoded(...)` as used at
`electronic_structure.py:336` and `:495`, together with the pymatgen domain
classes the payloads contain, following the closed-registry design of the
specification (§9): a dict carrying `@module`/`@class` tags is reconstructed
by the typed constructor registered for that tag pair, an unregistered tag
pair is an explicit reconstruction error, and untagged containers are
processed recursively.  The domain classes (Lattice, Dos, BandStructure,
BandStructureSymmLine, CompleteDos) are modelled with representative
numeric fields — integers stand in for the physical floating-point
quantities — preserving the nesting structure: a band structure carries a
tagged `Lattice` substructure, a complete DOS carries tagged `Dos`
substructures. -/

/-- Code-point bytes of an ASCII literal. -/
def strBytes (s : String) : List Nat := s.data.map Char.toNat

/-- pymatgen `Lattice` (tag `pymatgen.core.lattice` / `Lattice`). -/
structure Lattice where
  matrix : List (List Int)
deriving DecidableEq

/-- Spin channel, serialized as the dict key `"1"` or `"-1"`. -/
inductive SpinChannel where
  | up : SpinChannel
  | down : SpinChannel
deriving DecidableEq

def SpinChannel.key : SpinChannel → List Nat
  | .up => strBytes "1"
  | .down => strBytes "-1"

/-- pymatgen `Dos` (tag `pymatgen.electronic_structure.dos` / `Dos`). -/
structure DosData where
  efermi : Int
  energies : List Int
  densities : List (SpinChannel × List Int)
deriving DecidableEq

/-- Common fields of pymatgen `BandStructure` /
`BandStructureSymmLine`; `latticeRec` is the nested polymorphic
`lattice_rec` substructure. -/
structure BSData where
  latticeRec : Lattice
  efermi : Int
  kpoints : List (List Int)
  bands : List (SpinChannel × List (List Int))
deriving DecidableEq

/-- The decoded scientific domain objects. -/
inductive DomainObj where
  | lat : Lattice → DomainObj
  | dos : DosData → DomainObj
  | bs : BSData → DomainObj
  | bsLine : BSData → List (List Nat × List Int) → DomainObj
  | cdos : DosData → List DosData → DomainObj
deriving DecidableEq

def kModule : List Nat := strBytes "@module"

def kClass : List Nat := strBytes "@class"

def kLatMod : List Nat := strBytes "pymatgen.core.lattice"

def kBsMod : List Nat := strBytes "pymatgen.electronic_structure.bandstructure"

def kDosMod : List Nat := strBytes "pymatgen.electronic_structure.dos"

def intListMsg (l : List Int) : MsgValue := .arrV (l.map .intV)

def intMatMsg (m : List (List Int)) : MsgValue := .arrV (m.map intListMsg)

def Lattice.asDict (l : Lattice) : MsgValue :=
  .mapV [(.strV kModule, .strV kLatMod),
         (.strV kClass, .strV (strBytes "Lattice")),
         (.strV (strBytes "matrix"), intMatMsg l.matrix)]

def DosData.asDict (d : DosData) : MsgValue :=
  .mapV [(.strV kModule, .strV kDosMod),
         (.strV kClass, .strV (strBytes "Dos")),
         (.strV (strBytes "efermi"), .intV d.efermi),
         (.strV (strBytes "energies"), intListMsg d.energies),
         (.strV (strBytes "densities"),
           .mapV (d.densities.map fun p => (.strV p.1.key, intListMsg p.2)))]

def BSData.fieldsMsg (b : BSData) : List (MsgValue × MsgValue) :=
  [(.strV (strBytes "lattice_rec"), b.latticeRec.asDict),
   (.strV (strBytes "efermi"), .intV b.efermi),
   (.strV (strBytes "kpoints"), intMatMsg b.kpoints),
   (.strV (strBytes "bands"),
     .mapV (b.bands.map fun p => (.strV p.1.key, intMatMsg p.2)))]

/-- Tagged serialization (`as_dict`) of a domain object, the JSON-like
structure inside the `"data"` envelope. -/
def DomainObj.asDict : DomainObj → MsgValue
  | .lat l => l.asDict
  | .dos d => d.asDict
  | .bs b =>
    .mapV ((.strV kModule, .strV kBsMod) ::
           (.strV kClass, .strV (strBytes "BandStructure")) :: b.fieldsMsg)
  | .bsLine b lbls =>
    .mapV ((.strV kModule, .strV kBsMod) ::
           (.strV kClass, .strV (strBytes "BandStructureSymmLine")) ::
           (b.fieldsMsg ++
            [(.strV (strBytes "labels_dict"),
              .mapV (lbls.map fun p => (.strV p.1, intListMsg p.2)))]))
  | .cdos total pd =>
    .mapV [(.strV kModule, .strV kDosMod),
           (.strV kClass, .strV (strBytes "CompleteDos")),
           (.strV (strBytes "total"), total.asDict),
           (.strV (strBytes "pdos"), .arrV (pd.map DosData.asDict))]

/-- Reconstruction failures of the polymorphic decoder. -/
inductive RecErr where
  | unknownTag : RecErr
  | missingField : RecErr
  | badField : RecErr
deriving DecidableEq

/-- Python objects produced by `process_decoded`: generic values whose
sub-values may have been reconstructed into typed domain objects. -/
inductive PyObj where
  | noneO : PyObj
  | boolO : Bool → PyObj
  | intO : Int → PyObj
  | strO : List Nat → PyObj
  | listO : List PyObj → PyObj
  | dictO : List (PyObj × PyObj) → PyObj
  | objO : DomainObj → PyObj

/-- Dict lookup by string key in a msgpack map. -/
def msgLookup : List (MsgValue × MsgValue) → List Nat → Option MsgValue
  | [], _ => none
  | (k, v) :: t, key =>
    match k with
    | .strV s => if s = key then some v else msgLookup t key
    | _ => msgLookup t key

def decInt : MsgValue → Except RecErr Int
  | .intV n => .ok n
  | _ => .error .badField

def decIntList : MsgValue → Except RecErr (List Int)
  | .arrV xs => xs.mapM decInt
  | _ => .error .badField

def decIntMat : MsgValue → Except RecErr (List (List Int))
  | .arrV xs => xs.mapM decIntList
  | _ => .error .badField

def decSpin (s : List Nat) : Option SpinChannel :=
  if s = strBytes "1" then some .up
  else if s = strBytes "-1" then some .down
  else none

/-- Decode a spin-keyed map (`{"1": ..., "-1": ...}`) with a decoder for
the values. -/
def decSpinMap (dec : MsgValue → Except RecErr α) :
    MsgValue → Except RecErr (List (SpinChannel × α))
  | .mapV kvs =>
    kvs.mapM (fun kv =>
      match kv.1 with
      | .strV s =>
        match decSpin s with
        | some sc => (dec kv.2).map (fun a => (sc, a))
        | none => .error .badField
      | _ => .error .badField)
  | _ => .error .badField

/-- Decode a string-keyed map of integer lists (`labels_dict`). -/
def decLabels : MsgValue → Except RecErr (List (List Nat × List Int))
  | .mapV kvs =>
    kvs.mapM (fun kv =>
      match kv.1 with
      | .strV s => (decIntList kv.2).map (fun l => (s, l))
      | _ => .error .badField)
  | _ => .error .badField

/-- Look up a required field. -/
def reqField (kvs : List (MsgValue × MsgValue)) (key : List Nat) :
    Except RecErr MsgValue :=
  match msgLookup kvs key with
  | some v => .ok v
  | none => .error .missingField

/-- `Lattice.from_dict`. -/
def latticeFromDict (kvs : List (MsgValue × MsgValue)) :
    Except RecErr Lattice := do
  let m ← reqField kvs (strBytes "matrix")
  let mat ← decIntMat m
  return ⟨mat⟩

/-- Decode a value that must be a tagged `Lattice` dict. -/
def decLattice : MsgValue → Except RecErr Lattice
  | .mapV kvs =>
    match msgLookup kvs kModule, msgLookup kvs kClass with
    | some (.strV m), some (.strV c) =>
      if m = kLatMod ∧ c = strBytes "Lattice" then latticeFromDict kvs
      else .error .unknownTag
    | _, _ => .error .badField
  | _ => .error .badField

/-- `Dos.from_dict`. -/
def dosFromDict (kvs : List (MsgValue × MsgValue)) :
    Except RecErr DosData := do
  let ef ← reqField kvs (strBytes "efermi") >>= decInt
  let en ← reqField kvs (strBytes "energies") >>= decIntList
  let de ← reqField kvs (strBytes "densities") >>= decSpinMap decIntList
  return ⟨ef, en, de⟩

/-- Decode a value that must be a tagged `Dos` dict. -/
def decDos : MsgValue → Except RecErr DosData
  | .mapV kvs =>
    match msgLookup kvs kModule, msgLookup kvs kClass with
    | some (.strV m), some (.strV c) =>
      if m = kDosMod ∧ c = strBytes "Dos" then dosFromDict kvs
      else .error .unknownTag
    | _, _ => .error .badField
  | _ => .error .badField

/-- Shared `from_dict` of `BandStructure` / `BandStructureSymmLine`. -/
def bsDataFromDict (kvs : List (MsgValue × MsgValue)) :
    Except RecErr BSData := do
  let la ← reqField kvs (strBytes "lattice_rec") >>= decLattice
  let ef ← reqField kvs (strBytes "efermi") >>= decInt
  let kp ← reqField kvs (strBytes "kpoints") >>= decIntMat
  let bd ← reqField kvs (strBytes "bands") >>= decSpinMap decIntMat
  return ⟨la, ef, kp, bd⟩

/-- `BandStructureSymmLine.from_dict`. -/
def bsLineFromDict (kvs : List (MsgValue × MsgValue)) :
    Except RecErr (BSData × List (List Nat × List Int)) := do
  let b ← bsDataFromDict kvs
  let lbls ← reqField kvs (strBytes "labels_dict") >>= decLabels
  return (b, lbls)

/-- `CompleteDos.from_dict`. -/
def cdosFromDict (kvs : List (MsgValue × MsgValue)) :
    Except RecErr (DosData × List DosData) := do
  let total ← reqField kvs (strBytes "total") >>= decDos
  let pdosField ← reqField kvs (strBytes "pdos")
  match pdosField with
  | .arrV xs => do
    let pd ← xs.mapM decDos
    return (total, pd)
  | _ => .error .badField

mutual

/-- `MontyDecoder.process_decoded` as a closed registry: a dict with
`@module`/`@class` tags is reconstructed by the constructor registered for
the tag pair (an unregistered pair is an `unknownTag` error), and untagged
containers are processed recursively. -/
def processDecoded : MsgValue → Except RecErr PyObj
  | .nilV => .ok .noneO
  | .boolV b => .ok (.boolO b)
  | .intV n => .ok (.intO n)
  | .strV s => .ok (.strO s)
  | .arrV xs => (processList xs).map .listO
  | .mapV kvs =>
    match msgLookup kvs kModule, msgLookup kvs kClass with
    | some (.strV m), some (.strV c) =>
      if m = kLatMod ∧ c = strBytes "Lattice" then
        (latticeFromDict kvs).map (fun l => .objO (.lat l))
      else if m = kDosMod ∧ c = strBytes "Dos" then
        (dosFromDict kvs).map (fun d => .objO (.dos d))
      else if m = kBsMod ∧ c = strBytes "BandStructure" then
        (bsDataFromDict kvs).map (fun b => .objO (.bs b))
      else if m = kBsMod ∧ c = strBytes "BandStructureSymmLine" then
        (bsLineFromDict kvs).map (fun p => .objO (.bsLine p.1 p.2))
      else if m = kDosMod ∧ c = strBytes "CompleteDos" then
        (cdosFromDict kvs).map (fun p => .objO (.cdos p.1 p.2))
      else .error .unknownTag
    | _, _ => (processPairs kvs).map .dictO

/-- Process the elements of an untagged list. -/
def processList : List MsgValue → Except RecErr (List PyObj)
  | [] => .ok []
  | x :: t => do
    let px ← processDecoded x
    let pt ← processList t
    return px :: pt

/-- Process the entries of an untagged dict (keys and values). -/
def processPairs :
    List (MsgValue × MsgValue) → Except RecErr (List (PyObj × PyObj))
  | [] => .ok []
  | (k, v) :: t => do
    let pk ← processDecoded k
    let pv ← processDecoded v
    let pt ← processPairs t
    return (pk, pv) :: pt

end

/-! ## The decode chain

`electronic_structure.py:333-336` and `:492-495`:
```
b64_bytes = base64.b64decode(bs_obj[0], validate=True)
packed_bytes = zlib.decompress(b64_bytes)
json_data = msgpack.unpackb(packed_bytes, raw=False)
data = MontyDecoder().process_decoded(json_data["data"])
```
Each stage failure carries its own tag; `json_data["data"]` on a non-dict
or without the key (a Python `TypeError`/`KeyError`) belongs to the
extraction/reconstruction stage. -/

/-- Stage-tagged decode failures. -/
inductive DecodeErr where
  | malformedEncoding : DecodeErr
  | decompressionError : DecodeErr
  | deserializationError : DecodeErr
  | reconstructionError : RecErr → DecodeErr
deriving DecidableEq

/-- Stage 4: extract the `"data"` field of the unpacked structure
(`json_data["data"]`, a `TypeError`/`KeyError` when impossible) and
reconstruct it polymorphically. -/
def extractAndReconstruct (json : MsgValue) : Except RecErr PyObj :=
  match json with
  | .mapV kvs =>
    match msgLookup kvs (strBytes "data") with
    | some dataField => processDecoded dataField
    | none => .error .missingField
  | _ => .error .badField

/-- The full decode chain on the transport string (as characters). -/
def decodeChain (s : List Char) : Except DecodeErr PyObj :=
  match b64decodeStrict s with
  | none => .error .malformedEncoding
  | some b64bytes =>
    match zlibDecompress b64bytes with
    | none => .error .decompressionError
    | some packed =>
      match msgUnpack packed with
      | none => .error .deserializationError
      | some json =>
        match extractAndReconstruct json with
        | .ok obj => .ok obj
        | .error e => .error (.reconstructionError e)

/-- The `{"data": ...}` envelope of the wire format. -/
def dataEnvelope (o : DomainObj) : MsgValue :=
  .mapV [(.strV (strBytes "data"), o.asDict)]

/-- The spec's wire format (§6):
`base64(zlib_deflate(schema_binary_pack({"data": obj})))`. -/
def encodeObj (o : DomainObj) : Option (List Char) :=
  (packVal (dataEnvelope o)).map
    (fun packed => b64encode (zlibCompressStored packed))

/-! ## Documents, stores, and the resters -/

/-- Python values appearing in documents and object-store responses. -/
inductive PyVal where
  | noneV : PyVal
  | boolVl : Bool → PyVal
  | intVl : Int → PyVal
  | strVl : String → PyVal
  | listV : List PyVal → PyVal
  | dictV : List (String × PyVal) → PyVal

/-- `v is None`. -/
def PyVal.isNone : PyVal → Bool
  | .noneV => true
  | _ => false

/-- Python truthiness of the modelled values. -/
def PyVal.truthy : PyVal → Bool
  | .noneV => false
  | .boolVl b => b
  | .intVl n => n ≠ 0
  | .strVl s => s ≠ ""
  | .listV xs => ¬ xs.isEmpty
  | .dictV kvs => ¬ kvs.isEmpty

/-- `d.get(k, None)`. -/
def PyVal.get : PyVal → String → PyVal
  | .dictV kvs, k =>
    match kvs.lookup k with
    | some v => v
    | none => .noneV
  | _, _ => .noneV

/-- Failures surfaced by the resters. -/
inductive RErr where
  /-- A raised `MPRestError` with its message. -/
  | mpRestError : String → RErr
  /-- An uncaught Python `KeyError` from unconditional dict indexing —
  the spec's `MalformedDocument`. -/
  | malformedDocument : String → RErr
  /-- Indexing a value of the wrong type (Python `TypeError`). -/
  | typeError : RErr
  /-- Indexing an empty sequence (Python `IndexError`). -/
  | indexError : RErr
  /-- A decode-chain failure propagated unchanged. -/
  | decodeError : DecodeErr → RErr
deriving DecidableEq

/-- `d[k]` on a document value: `KeyError` when the key is missing,
`TypeError` when the value is not a dict. -/
def pyIndex : PyVal → String → Except RErr PyVal
  | .dictV kvs, k =>
    match kvs.lookup k with
    | some v => .ok v
    | none => .error (.malformedDocument k)
  | _, _ => .error .typeError

/-- `emmet.core.electronic_structure.BSPathType`. -/
inductive BSPathType where
  | setyawan_curtarolo : BSPathType
  | latimer_munro : BSPathType
  | hinuma : BSPathType
deriving DecidableEq

def BSPathType.value : BSPathType → String
  | .setyawan_curtarolo => "setyawan_curtarolo"
  | .latimer_munro => "latimer_munro"
  | .hinuma => "hinuma"

/-- Task resolution of `get_bandstructure_from_material_id`
(`electronic_structure.py:289-328`).  `bandstructureField` / `dosField` are
the document's `bandstructure` / `dos` fields as returned by the document
fetch (`.noneV` for null, otherwise the `.dict()` form). -/
def resolveBsTask (bandstructureField dosField : PyVal) (materialId : String)
    (pathType : BSPathType) (lineMode : Bool) : Except RErr PyVal :=
  if lineMode then
    match bandstructureField with
    | .noneV =>
      .error (.mpRestError ("No " ++ pathType.value ++
        " band structure data found for " ++ materialId))
    | bsData =>
      if (bsData.get pathType.value).truthy then
        (pyIndex bsData pathType.value).bind (fun entry =>
          pyIndex entry "task_id")
      else
        .error (.mpRestError ("No " ++ pathType.value ++
          " band structure data found for " ++ materialId))
  else
    match dosField with
    | .noneV =>
      .error (.mpRestError ("No uniform band structure data found for " ++
        materialId))
    | dosData =>
      if (dosData.get "total").truthy then
        (pyIndex dosData "total").bind (fun t =>
          (pyIndex t "1").bind (fun s1 => pyIndex s1 "task_id"))
      else
        .error (.mpRestError ("No uniform band structure data found for " ++
          materialId))

/-- The object fetch shared verbatim by
`BandStructureRester.get_bandstructure_from_task_id`
(`electronic_structure.py:243-265`) and
`DosRester.get_dos_from_task_id` (`:440-462`): query the object store by
task id and return `result["data"]` unless `result.get("data", None)` is
`None`. -/
def queryObjData (objStore : PyVal → List (String × PyVal)) (taskId : PyVal) :
    Except RErr PyVal :=
  match (objStore taskId).lookup "data" with
  | some v =>
    if v.isNone then .error (.mpRestError "No object found") else .ok v
  | none => .error (.mpRestError "No object found")

def get_bandstructure_from_task_id
    (objStore : PyVal → List (String × PyVal)) (taskId : PyVal) :
    Except RErr PyVal :=
  queryObjData objStore taskId

def get_dos_from_task_id
    (objStore : PyVal → List (String × PyVal)) (taskId : PyVal) :
    Except RErr PyVal :=
  queryObjData objStore taskId

/-- `obj[0]` followed by the type requirement of `base64.b64decode`: the
first element must be a string. -/
def pyFirstStr : PyVal → Except RErr (List Char)
  | .listV (x :: _) =>
    match x with
    | .strVl s => .ok s.data
    | _ => .error .typeError
  | .listV [] => .error .indexError
  | .strVl s =>
    match s.data with
    | c :: _ => .ok [c]
    | [] => .error .indexError
  | .dictV _ => .error (.malformedDocument "0")
  | _ => .error .typeError

/-- `BandStructureRester.get_bandstructure_from_material_id`
(`electronic_structure.py:267-340`).  Returns the outcome together with
the list of task ids fetched from the object store during the call. -/
def get_bandstructure_from_material_id
    (bandstructureField dosField : PyVal)
    (objStore : PyVal → List (String × PyVal))
    (materialId : String) (pathType : BSPathType) (lineMode : Bool) :
    Except RErr PyObj × List PyVal :=
  match resolveBsTask bandstructureField dosField materialId pathType lineMode with
  | .error e => (.error e, [])
  | .ok bsTaskId =>
    match get_bandstructure_from_task_id objStore bsTaskId with
    | .error e => (.error e, [bsTaskId])
    | .ok bsObj =>
      if bsObj.truthy then
        match pyFirstStr bsObj with
        | .error e => (.error e, [bsTaskId])
        | .ok chars =>
          match decodeChain chars with
          | .ok data => (.ok data, [bsTaskId])
          | .error e => (.error (.decodeError e), [bsTaskId])
      else
        (.error (.mpRestError "No band structure object found."), [bsTaskId])

/-- The fetch-and-decode tail of `get_dos_from_material_id`
(`electronic_structure.py:490-498`). -/
def fetchAndDecodeDos (objStore : PyVal → List (String × PyVal))
    (dosTaskId : PyVal) : Except RErr PyObj × List PyVal :=
  match get_dos_from_task_id objStore dosTaskId with
  | .error e => (.error e, [dosTaskId])
  | .ok dosObj =>
    if dosObj.truthy then
      match pyFirstStr dosObj with
      | .error e => (.error e, [dosTaskId])
      | .ok chars =>
        match decodeChain chars with
        | .ok data => (.ok data, [dosTaskId])
        | .error e => (.error (.decodeError e), [dosTaskId])
    else
      (.error (.mpRestError "No density of states object found."),
       [dosTaskId])

/-- `DosRester.get_dos_from_material_id` (`electronic_structure.py:464-498`).
`docDict` is the fetched document's `.dict()` form. -/
def get_dos_from_material_id (docDict : PyVal)
    (objStore : PyVal → List (String × PyVal)) (materialId : String) :
    Except RErr PyObj × List PyVal :=
  match pyIndex docDict "dos" with
  | .error e => (.error e, [])
  | .ok dosVal =>
    if dosVal.truthy then
      match (pyIndex dosVal "total").bind (fun t =>
        (pyIndex t "1").bind (fun s1 => pyIndex s1 "task_id")) with
      | .error e => (.error e, [])
      | .ok dosTaskId => fetchAndDecodeDos objStore dosTaskId
    else
      (.error (.mpRestError ("No density of states data found for " ++
        materialId)), [])

/-- A sample domain object exercising nested polymorphic substructures: a
line-mode band structure carrying a tagged `Lattice`. -/
def sampleBsLine : DomainObj :=
  .bsLine ⟨⟨[[1, 0], [0, 1]]⟩, 5, [[0, 0], [1, 1]],
           [(.up, [[1, 2], [3, 4]]), (.down, [[5, 6], [7, 8]])]⟩
    [(strBytes "X", [0, 0])]

/-! ## Theorems -/

theorem length_writeBE (k n : Nat) : (writeBE k n).length = k := by
  induction k generalizing n with
  | zero => rfl
  | succ k ih => simp [writeBE, ih]

theorem writeBE_lt (k n : Nat) (hn : n < 256 ^ k) : ∀ b ∈ writeBE k n, b < 256 := by
  induction k generalizing n with
  | zero => intro b hb; simp [writeBE] at hb
  | succ k ih =>
    intro b hb
    simp only [writeBE, List.mem_cons] at hb
    rcases hb with h | h
    · subst h
      have h256 : (0:Nat) < 256 ^ k := Nat.pos_pow_of_pos _ (by norm_num)
      rw [Nat.div_lt_iff_lt_mul h256]
      calc n < 256 ^ (k + 1) := hn
        _ = 256 * 256 ^ k := by ring
    · exact ih _ (Nat.mod_lt _ (Nat.pos_pow_of_pos _ (by norm_num))) _ h

theorem readBE_writeBE (k n : Nat) (hn : n < 256 ^ k) (rest : List Nat) :
    readBE k (writeBE k n ++ rest) = some (n, rest) := by
  induction k generalizing n with
  | zero =>
    simp only [Nat.pow_zero, Nat.lt_one_iff] at hn
    subst hn; rfl
  | succ k ih =>
    have hmod : n % 256 ^ k < 256 ^ k :=
      Nat.mod_lt _ (Nat.pos_pow_of_pos _ (by norm_num))
    simp only [writeBE, List.cons_append, readBE, List.append_eq, ih _ hmod,
      Option.map_some]
    have h : n / 256 ^ k * 256 ^ k + n % 256 ^ k = n := by
      rw [Nat.mul_comm]; exact Nat.div_add_mod n (256 ^ k)
    show some (n / 256 ^ k * 256 ^ k + n % 256 ^ k, rest) = some (n, rest)
    rw [h]

theorem b64sext_b64chr (n : Nat) (h : n < 64) : b64sext (b64chr n) = some n := by
  revert h; revert n; decide

theorem b64chr_ne_pad (n : Nat) (h : n < 64) : b64chr n ≠ '=' := by
  revert h; revert n; decide

theorem b64decodeStrict_b64encode :
    ∀ (bytes : List Nat), (∀ b ∈ bytes, b < 256) →
      b64decodeStrict (b64encode bytes) = some bytes := by
  have H : ∀ (n : Nat) (bytes : List Nat), bytes.length ≤ n →
      (∀ b ∈ bytes, b < 256) →
      b64decodeStrict (b64encode bytes) = some bytes := by
    intro n
    induction n with
    | zero =>
      intro bytes hlen _
      match bytes with
      | [] => simp [b64encode, b64decodeStrict]
      | b :: t => simp at hlen
    | succ n ih =>
      intro bytes hlen hb
      match bytes with
      | [] => simp [b64encode, b64decodeStrict]
      | [b0] =>
        have h0 : b0 < 256 := hb b0 (by simp)
        have e0 : b64sext (b64chr (b0 / 4)) = some (b0 / 4) :=
          b64sext_b64chr _ (by omega)
        have e1 : b64sext (b64chr (b0 % 4 * 16)) = some (b0 % 4 * 16) :=
          b64sext_b64chr _ (by omega)
        simp only [b64encode, b64decodeStrict, e0, e1, if_pos]
        simp only [Option.some.injEq, List.cons.injEq, and_true]
        omega
      | [b0, b1] =>
        have h0 : b0 < 256 := hb b0 (by simp)
        have h1 : b1 < 256 := hb b1 (by simp)
        have e0 : b64sext (b64chr (b0 / 4)) = some (b0 / 4) :=
          b64sext_b64chr _ (by omega)
        have e1 : b64sext (b64chr (b0 % 4 * 16 + b1 / 16)) =
            some (b0 % 4 * 16 + b1 / 16) := b64sext_b64chr _ (by omega)
        have e2 : b64sext (b64chr (b1 % 16 * 4)) = some (b1 % 16 * 4) :=
          b64sext_b64chr _ (by omega)
        have ne2 : b64chr (b1 % 16 * 4) ≠ '=' := b64chr_ne_pad _ (by omega)
        simp only [b64encode, b64decodeStrict, e0, e1, e2, if_pos,
          if_neg ne2]
        simp only [Option.some.injEq, List.cons.injEq, and_true]
        omega
      | b0 :: b1 :: b2 :: b3 :: rest' =>
        -- re-associate so that the recursive tail is `b3 :: rest'`
        have h0 : b0 < 256 := hb b0 (by simp)
        have h1 : b1 < 256 := hb b1 (by simp)
        have h2 : b2 < 256 := hb b2 (by simp)
        have e0 : b64sext (b64chr (b0 / 4)) = some (b0 / 4) :=
          b64sext_b64chr _ (by omega)
        have e1 : b64sext (b64chr (b0 % 4 * 16 + b1 / 16)) =
            some (b0 % 4 * 16 + b1 / 16) := b64sext_b64chr _ (by omega)
        have e2 : b64sext (b64chr (b1 % 16 * 4 + b2 / 64)) =
            some (b1 % 16 * 4 + b2 / 64) := b64sext_b64chr _ (by omega)
        have e3 : b64sext (b64chr (b2 % 64)) = some (b2 % 64) :=
          b64sext_b64chr _ (by omega)
        have ne3 : b64chr (b2 % 64) ≠ '=' := b64chr_ne_pad _ (by omega)
        have hrec : b64decodeStrict (b64encode (b3 :: rest')) =
            some (b3 :: rest') := by
          apply ih
          · simp only [List.length_cons] at hlen ⊢; omega
          · intro b hmem
            exact hb b (by simp only [List.mem_cons] at hmem ⊢; tauto)
        simp only [b64encode, b64decodeStrict, e0, e1, e2, e3, if_neg ne3,
          hrec, Option.map_some, Option.map_some']
        simp only [Option.some.injEq, List.cons.injEq, and_true]
        refine ⟨by omega, by omega, by omega⟩
      | [b0, b1, b2] =>
        have h0 : b0 < 256 := hb b0 (by simp)
        have h1 : b1 < 256 := hb b1 (by simp)
        have h2 : b2 < 256 := hb b2 (by simp)
        have e0 : b64sext (b64chr (b0 / 4)) = some (b0 / 4) :=
          b64sext_b64chr _ (by omega)
        have e1 : b64sext (b64chr (b0 % 4 * 16 + b1 / 16)) =
            some (b0 % 4 * 16 + b1 / 16) := b64sext_b64chr _ (by omega)
        have e2 : b64sext (b64chr (b1 % 16 * 4 + b2 / 64)) =
            some (b1 % 16 * 4 + b2 / 64) := b64sext_b64chr _ (by omega)
        have e3 : b64sext (b64chr (b2 % 64)) = some (b2 % 64) :=
          b64sext_b64chr _ (by omega)
        have ne3 : b64chr (b2 % 64) ≠ '=' := b64chr_ne_pad _ (by omega)
        simp only [b64encode, b64decodeStrict, e0, e1, e2, e3, if_neg ne3,
          Option.map_some, Option.map_some']
        simp only [Option.some.injEq, List.cons.injEq, and_true]
        refine ⟨by omega, by omega, by omega⟩
  intro bytes hb
  exact H bytes.length bytes le_rfl hb

theorem b64sext_pad : b64sext '=' = none := by decide

theorem b64decodeStrict_one (c : Char) : b64decodeStrict [c] = none := by
  simp [b64decodeStrict]

theorem b64decodeStrict_two (c c' : Char) : b64decodeStrict [c, c'] = none := by
  simp [b64decodeStrict]

theorem b64decodeStrict_three (c c' c'' : Char) :
    b64decodeStrict [c, c', c''] = none := by
  simp [b64decodeStrict]

/-- Inversion principle for a successful strict decode of a 4-character
group. -/
theorem b64decodeStrict_quad_inv (c0 c1 c2 c3 : Char) (rest : List Char)
    (out : List Nat)
    (h : b64decodeStrict (c0 :: c1 :: c2 :: c3 :: rest) = some out) :
    (b64sext c0).isSome ∧ (b64sext c1).isSome ∧
    ((c3 = '=' ∧ rest = [] ∧ (c2 = '=' ∨ (b64sext c2).isSome)) ∨
     (c3 ≠ '=' ∧ (b64sext c2).isSome ∧ (b64sext c3).isSome ∧
       ∃ out', b64decodeStrict rest = some out')) := by
  cases hs0 : b64sext c0 with
  | none => simp [b64decodeStrict, hs0] at h
  | some s0 =>
    cases hs1 : b64sext c1 with
    | none => simp [b64decodeStrict, hs0, hs1] at h
    | some s1 =>
      refine ⟨by simp [hs0], by simp [hs1], ?_⟩
      by_cases hc3 : c3 = '='
      · left
        by_cases hrest : rest = []
        · refine ⟨hc3, hrest, ?_⟩
          by_cases hc2 : c2 = '='
          · exact Or.inl hc2
          · right
            cases hs2 : b64sext c2 with
            | none =>
              simp [b64decodeStrict, hs0, hs1, hc3, hrest, hc2, hs2] at h
            | some s2 => simp
        · simp [b64decodeStrict, hs0, hs1, hc3, hrest] at h
      · right
        cases hs2 : b64sext c2 with
        | none => simp [b64decodeStrict, hs0, hs1, hc3, hs2] at h
        | some s2 =>
          cases hs3 : b64sext c3 with
          | none => simp [b64decodeStrict, hs0, hs1, hc3, hs2, hs3] at h
          | some s3 =>
            refine ⟨hc3, by simp, by simp, ?_⟩
            cases hr : b64decodeStrict rest with
            | none =>
              simp [b64decodeStrict, hs0, hs1, hc3, hs2, hs3, hr] at h
            | some out' => exact ⟨out', rfl⟩

/-- A successful strict decode implies every input character is either in
the base64 alphabet or is the `'='` pad. -/
theorem b64decodeStrict_chars (s : List Char) (out : List Nat)
    (h : b64decodeStrict s = some out) :
    ∀ c ∈ s, (b64sext c).isSome ∨ c = '=' := by
  have H : ∀ (n : Nat) (s : List Char) (out : List Nat), s.length ≤ n →
      b64decodeStrict s = some out →
      ∀ c ∈ s, (b64sext c).isSome ∨ c = '=' := by
    intro n
    induction n with
    | zero =>
      intro s out hlen h c hc
      match s with
      | [] => simp at hc
      | x :: t => simp at hlen
    | succ n ih =>
      intro s out hlen h c hc
      match s with
      | [] => simp at hc
      | [c0] => rw [b64decodeStrict_one] at h; exact absurd h (by simp)
      | [c0, c1] => rw [b64decodeStrict_two] at h; exact absurd h (by simp)
      | [c0, c1, c2] => rw [b64decodeStrict_three] at h; exact absurd h (by simp)
      | c0 :: c1 :: c2 :: c3 :: rest =>
        obtain ⟨h0, h1, hcase⟩ := b64decodeStrict_quad_inv _ _ _ _ _ _ h
        simp only [List.mem_cons] at hc
        rcases hc with rfl | rfl | rfl | rfl | hc
        · exact Or.inl h0
        · exact Or.inl h1
        · rcases hcase with ⟨_, _, h2⟩ | ⟨_, h2, _, _⟩
          · rcases h2 with h2 | h2
            · exact Or.inr h2
            · exact Or.inl h2
          · exact Or.inl h2
        · rcases hcase with ⟨h3, _, _⟩ | ⟨_, _, h3, _⟩
          · exact Or.inr h3
          · exact Or.inl h3
        · rcases hcase with ⟨_, hrest, _⟩ | ⟨_, _, _, out', hrest⟩
          · subst hrest; simp at hc
          · exact ih rest out' (by simp at hlen ⊢; omega) hrest c hc
  exact H s.length s out le_rfl h

/-- A successful strict decode implies the input length is a multiple of 4. -/
theorem b64decodeStrict_length (s : List Char) (out : List Nat)
    (h : b64decodeStrict s = some out) : s.length % 4 = 0 := by
  have H : ∀ (n : Nat) (s : List Char) (out : List Nat), s.length ≤ n →
      b64decodeStrict s = some out → s.length % 4 = 0 := by
    intro n
    induction n with
    | zero =>
      intro s out hlen h
      match s with
      | [] => simp
      | x :: t => simp at hlen
    | succ n ih =>
      intro s out hlen h
      match s with
      | [] => simp
      | [c0] => rw [b64decodeStrict_one] at h; exact absurd h (by simp)
      | [c0, c1] => rw [b64decodeStrict_two] at h; exact absurd h (by simp)
      | [c0, c1, c2] => rw [b64decodeStrict_three] at h; exact absurd h (by simp)
      | c0 :: c1 :: c2 :: c3 :: rest =>
        obtain ⟨_, _, hcase⟩ := b64decodeStrict_quad_inv _ _ _ _ _ _ h
        rcases hcase with ⟨_, hrest, _⟩ | ⟨_, _, _, out', hrest⟩
        · subst hrest; simp
        · have := ih rest out' (by simp at hlen ⊢; omega) hrest
          simp only [List.length_cons]
          omega
  exact H s.length s out le_rfl h

/-- A successful strict decode implies no pad character is followed by two
or more characters: padding may only occupy the final two positions. -/
theorem b64decodeStrict_pad_final (s : List Char) (out : List Nat)
    (h : b64decodeStrict s = some out) :
    ¬ ∃ (l r : List Char), s = l ++ '=' :: r ∧ 2 ≤ r.length := by
  have H : ∀ (n : Nat) (s : List Char) (out : List Nat), s.length ≤ n →
      b64decodeStrict s = some out →
      ∀ (l r : List Char), s = l ++ '=' :: r → r.length < 2 := by
    intro n
    induction n with
    | zero =>
      intro s out hlen h l r heq
      match s with
      | [] => exact absurd heq (by simp)
      | x :: t => simp at hlen
    | succ n ih =>
      intro s out hlen h l r heq
      match s with
      | [] => exact absurd heq (by simp)
      | [c0] => rw [b64decodeStrict_one] at h; exact absurd h (by simp)
      | [c0, c1] => rw [b64decodeStrict_two] at h; exact absurd h (by simp)
      | [c0, c1, c2] => rw [b64decodeStrict_three] at h; exact absurd h (by simp)
      | c0 :: c1 :: c2 :: c3 :: rest =>
        obtain ⟨h0, h1, hcase⟩ := b64decodeStrict_quad_inv _ _ _ _ _ _ h
        match l with
        | [] =>
          simp only [List.nil_append, List.cons.injEq] at heq
          rw [heq.1, b64sext_pad] at h0; simp at h0
        | [x] =>
          simp only [List.cons_append, List.nil_append, List.cons.injEq] at heq
          rw [heq.2.1, b64sext_pad] at h1; simp at h1
        | [x, y] =>
          simp only [List.cons_append, List.nil_append, List.cons.injEq] at heq
          obtain ⟨-, -, hc2, hr⟩ := heq
          rcases hcase with ⟨-, hrest, -⟩ | ⟨-, h2, -, -⟩
          · subst hrest
            rw [← hr]; simp
          · rw [hc2, b64sext_pad] at h2; simp at h2
        | [x, y, z] =>
          simp only [List.cons_append, List.nil_append, List.cons.injEq] at heq
          obtain ⟨-, -, -, hc3, hr⟩ := heq
          rcases hcase with ⟨-, hrest, -⟩ | ⟨hc3', -, -, -⟩
          · subst hrest; rw [← hr]; simp
          · exact absurd hc3 hc3'
        | x :: y :: z :: w :: l' =>
          simp only [List.cons_append, List.cons.injEq] at heq
          obtain ⟨-, -, -, -, hr⟩ := heq
          rcases hcase with ⟨-, hrest, -⟩ | ⟨-, -, -, out', hrest⟩
          · rw [hrest] at hr; exact absurd hr (by simp)
          · exact ih rest out' (by simp at hlen ⊢; omega) hrest l' r hr
  intro ⟨l, r, heq, hlen2⟩
  have := H s.length s out le_rfl h l r heq
  omega

/-- A successful strict decode implies that a pad in the penultimate
position forces a pad in the final position. -/
theorem b64decodeStrict_pad_pair (s : List Char) (out : List Nat)
    (h : b64decodeStrict s = some out) :
    ∀ (l : List Char) (c : Char), s = l ++ ['=', c] → c = '=' := by
  have H : ∀ (n : Nat) (s : List Char) (out : List Nat), s.length ≤ n →
      b64decodeStrict s = some out →
      ∀ (l : List Char) (c : Char), s = l ++ ['=', c] → c = '=' := by
    intro n
    induction n with
    | zero =>
      intro s out hlen h l c heq
      match s with
      | [] => exact absurd heq (by simp)
      | x :: t => simp at hlen
    | succ n ih =>
      intro s out hlen h l c heq
      match s with
      | [] => exact absurd heq (by simp)
      | [c0] => rw [b64decodeStrict_one] at h; exact absurd h (by simp)
      | [c0, c1] => rw [b64decodeStrict_two] at h; exact absurd h (by simp)
      | [c0, c1, c2] => rw [b64decodeStrict_three] at h; exact absurd h (by simp)
      | c0 :: c1 :: c2 :: c3 :: rest =>
        obtain ⟨h0, h1, hcase⟩ := b64decodeStrict_quad_inv _ _ _ _ _ _ h
        match l with
        | [] =>
          -- s would have length 2
          have : (c0 :: c1 :: c2 :: c3 :: rest).length = 2 := by
            rw [heq]; simp
          simp at this
        | [x] =>
          have : (c0 :: c1 :: c2 :: c3 :: rest).length = 3 := by
            rw [heq]; simp
          simp at this
        | [x, y] =>
          simp only [List.cons_append, List.nil_append, List.cons.injEq] at heq
          obtain ⟨-, -, hc2, hc3, hr⟩ := heq
          rcases hcase with ⟨hc3', -, -⟩ | ⟨-, h2, -, -⟩
          · rw [← hc3]; exact hc3'
          · rw [hc2, b64sext_pad] at h2; simp at h2
        | [x, y, z] =>
          simp only [List.cons_append, List.nil_append, List.cons.injEq] at heq
          obtain ⟨-, -, -, hc3, hr⟩ := heq
          rcases hcase with ⟨-, hrest, -⟩ | ⟨hc3', -, -, -⟩
          · rw [hrest] at hr; exact absurd hr (by simp)
          · exact absurd hc3 hc3'
        | x :: y :: z :: w :: l' =>
          simp only [List.cons_append, List.cons.injEq] at heq
          obtain ⟨-, -, -, -, hr⟩ := heq
          rcases hcase with ⟨-, hrest, -⟩ | ⟨-, -, -, out', hrest⟩
          · rw [hrest] at hr; exact absurd hr (by simp)
          · exact ih rest out' (by simp at hlen ⊢; omega) hrest l' c hr
  exact H s.length s out le_rfl h

theorem adler32_lt (d : List Nat) : adler32 d < 256 ^ 4 := by
  have h : ∀ (l : List Nat) (ab : Nat × Nat), ab.1 < 65521 → ab.2 < 65521 →
      (l.foldl adlerStep ab).1 < 65521 ∧ (l.foldl adlerStep ab).2 < 65521 := by
    intro l
    induction l with
    | nil => intro ab ha hb; exact ⟨ha, hb⟩
    | cons x t ih =>
      intro ab ha hb
      exact ih _ (Nat.mod_lt _ (by norm_num)) (Nat.mod_lt _ (by norm_num))
  obtain ⟨h1, h2⟩ := h d (1, 0) (by norm_num) (by norm_num)
  unfold adler32
  omega

theorem le_length_deflateStored (d : List Nat) :
    d.length ≤ (deflateStored d).length := by
  have H : ∀ (n : Nat) (d : List Nat), d.length ≤ n →
      d.length ≤ (deflateStored d).length := by
    intro n
    induction n with
    | zero =>
      intro d hlen
      rw [deflateStored]
      split
      · simp only [writeLE16, List.length_cons, List.length_append,
          List.length_nil]
        omega
      · omega
    | succ n ih =>
      intro d hlen
      rw [deflateStored]
      split
      · simp only [writeLE16, List.length_cons, List.length_append,
          List.length_nil]
        omega
      · rename_i hgt
        push_neg at hgt
        have hrec := ih (d.drop 65535) (by simp only [List.length_drop]; omega)
        simp only [writeLE16, List.length_cons, List.length_append,
          List.length_nil, List.length_take, List.length_drop] at hrec ⊢
        omega
  exact H d.length d le_rfl

theorem deflateStored_lt (d : List Nat) (hd : ∀ b ∈ d, b < 256) :
    ∀ b ∈ deflateStored d, b < 256 := by
  have H : ∀ (n : Nat) (d : List Nat), d.length ≤ n → (∀ b ∈ d, b < 256) →
      ∀ b ∈ deflateStored d, b < 256 := by
    intro n
    induction n with
    | zero =>
      intro d hlen hd b hb
      rw [deflateStored] at hb
      split at hb
      · simp only [writeLE16, List.cons_append, List.nil_append,
          List.append_assoc, List.mem_cons] at hb
        rcases hb with h | h | h | h | h | h
        · omega
        · omega
        · omega
        · omega
        · omega
        · exact hd _ h
      · omega
    | succ n ih =>
      intro d hlen hd b hb
      rw [deflateStored] at hb
      split at hb
      · simp only [writeLE16, List.cons_append, List.nil_append,
          List.append_assoc, List.mem_cons] at hb
        rcases hb with h | h | h | h | h | h
        · omega
        · omega
        · omega
        · omega
        · omega
        · exact hd _ h
      · rename_i hgt
        push_neg at hgt
        simp only [writeLE16, List.cons_append, List.nil_append,
          List.append_assoc, List.mem_cons, List.mem_append] at hb
        rcases hb with h | h | h | h | h | h | h
        · omega
        · omega
        · omega
        · omega
        · omega
        · exact hd _ (List.mem_of_mem_take h)
        · exact ih (d.drop 65535) (by simp only [List.length_drop]; omega)
            (fun c hc => hd _ (List.mem_of_mem_drop hc)) _ h
  exact H d.length d le_rfl hd

theorem inflateBlocks_deflateStored :
    ∀ (f : Nat) (d tail : List Nat), d.length + 1 ≤ f →
      inflateBlocks f (deflateStored d ++ tail) = some (d, tail) := by
  intro f
  induction f with
  | zero => intro d tail hf; omega
  | succ f ih =>
    intro d tail hf
    rw [deflateStored]
    split
    · rename_i hle
      simp only [writeLE16, List.cons_append, List.nil_append,
        List.append_assoc, inflateBlocks, List.append_eq, List.cons_append]
      rw [if_pos (by norm_num)]
      have hlen : d.length % 256 + 256 * (d.length / 256 % 256) = d.length := by
        omega
      rw [hlen]
      rw [if_pos ?hcond]
      case hcond =>
        constructor
        · omega
        · simp only [List.length_append]; omega
      rw [if_pos (by norm_num)]
      rw [show d.length = (d : List Nat).length from rfl]
      rw [List.take_left, List.drop_left]
    · rename_i hgt
      push_neg at hgt
      simp only [writeLE16, List.cons_append, List.nil_append,
        List.append_assoc, inflateBlocks, List.append_eq, List.cons_append]
      rw [if_pos (by norm_num)]
      have h65535 : (65535 : Nat) % 256 + 256 * (65535 / 256 % 256) = 65535 := by
        norm_num
      rw [h65535]
      have hlen_take : (d.take 65535).length = 65535 := by
        simp only [List.length_take]
        omega
      rw [if_pos ?hcond2]
      case hcond2 =>
        constructor
        · norm_num
        · simp only [List.length_append]
          omega
      rw [if_neg (by norm_num)]
      rw [List.take_left' hlen_take, List.drop_left' hlen_take]
      rw [ih (d.drop 65535) tail (by simp only [List.length_drop]; omega)]
      simp only [Option.map_some, Option.map_some']
      rw [List.take_append_drop]

theorem zlibDecompress_zlibCompressStored (d : List Nat) :
    zlibDecompress (zlibCompressStored d) = some d := by
  simp only [zlibCompressStored, zlibDecompress]
  rw [if_pos (by norm_num)]
  have hfuel : d.length + 1 ≤ (deflateStored d ++ writeBE 4 (adler32 d)).length + 1 := by
    have := le_length_deflateStored d
    simp only [List.length_append]
    omega
  rw [inflateBlocks_deflateStored _ d (writeBE 4 (adler32 d)) hfuel]
  have hread : readBE 4 (writeBE 4 (adler32 d)) = some (adler32 d, []) := by
    have h := readBE_writeBE 4 (adler32 d) (adler32_lt d) []
    rwa [List.append_nil] at h
  simp [hread]

theorem zlibCompressStored_lt (d : List Nat) (hd : ∀ b ∈ d, b < 256) :
    ∀ b ∈ zlibCompressStored d, b < 256 := by
  intro b hb
  simp only [zlibCompressStored, List.mem_cons, List.mem_append] at hb
  rcases hb with h | h | h | h
  · omega
  · omega
  · exact deflateStored_lt d hd _ h
  · exact writeBE_lt 4 (adler32 d) (adler32_lt d) _ h

theorem readBE_one (b : Nat) (s : List Nat) : readBE 1 (b :: s) = some (b, s) := by
  simp [readBE]

theorem parseV_fixpos (f m : Nat) (s : List Nat) (h : m < 128) :
    parseV (f + 1) (m :: s) = some (.intV m, s) := by
  simp only [parseV]
  rw [if_pos h]

theorem parseV_fixmap (f L : Nat) (s : List Nat) (h : L < 16) :
    parseV (f + 1) ((128 + L) :: s) =
      (parsePairs f L s).map (fun p => (.mapV p.1, p.2)) := by
  simp only [parseV]
  rw [if_neg (by omega), if_pos (by omega),
    show 128 + L - 128 = L from by omega]

theorem parseV_fixarr (f L : Nat) (s : List Nat) (h : L < 16) :
    parseV (f + 1) ((144 + L) :: s) =
      (parseElems f L s).map (fun p => (.arrV p.1, p.2)) := by
  simp only [parseV]
  rw [if_neg (by omega), if_neg (by omega), if_pos (by omega),
    show 144 + L - 144 = L from by omega]

theorem parseV_fixstr (f L : Nat) (s : List Nat) (h : L < 32) :
    parseV (f + 1) ((160 + L) :: s) =
      (takeExact L s).map (fun p => (.strV p.1, p.2)) := by
  simp only [parseV]
  rw [if_neg (by omega), if_neg (by omega), if_neg (by omega),
    if_pos (by omega), show 160 + L - 160 = L from by omega]

theorem parseV_nil (f : Nat) (s : List Nat) :
    parseV (f + 1) (192 :: s) = some (.nilV, s) := by
  simp only [parseV]
  norm_num

theorem parseV_false (f : Nat) (s : List Nat) :
    parseV (f + 1) (194 :: s) = some (.boolV false, s) := by
  simp only [parseV]
  norm_num

theorem parseV_true (f : Nat) (s : List Nat) :
    parseV (f + 1) (195 :: s) = some (.boolV true, s) := by
  simp only [parseV]
  norm_num

theorem parseV_u8 (f : Nat) (s : List Nat) :
    parseV (f + 1) (204 :: s) = (readBE 1 s).map (fun p => (.intV p.1, p.2)) := by
  simp only [parseV]
  norm_num

theorem parseV_u16 (f : Nat) (s : List Nat) :
    parseV (f + 1) (205 :: s) = (readBE 2 s).map (fun p => (.intV p.1, p.2)) := by
  simp only [parseV]
  norm_num

theorem parseV_u32 (f : Nat) (s : List Nat) :
    parseV (f + 1) (206 :: s) = (readBE 4 s).map (fun p => (.intV p.1, p.2)) := by
  simp only [parseV]
  norm_num

theorem parseV_u64 (f : Nat) (s : List Nat) :
    parseV (f + 1) (207 :: s) = (readBE 8 s).map (fun p => (.intV p.1, p.2)) := by
  simp only [parseV]
  norm_num

theorem parseV_i8 (f : Nat) (s : List Nat) :
    parseV (f + 1) (208 :: s) =
      (readBE 1 s).map (fun p => (.intV (ofTwos p.1 256), p.2)) := by
  simp only [parseV]
  norm_num

theorem parseV_i16 (f : Nat) (s : List Nat) :
    parseV (f + 1) (209 :: s) =
      (readBE 2 s).map (fun p => (.intV (ofTwos p.1 65536), p.2)) := by
  simp only [parseV]
  norm_num

theorem parseV_i32 (f : Nat) (s : List Nat) :
    parseV (f + 1) (210 :: s) =
      (readBE 4 s).map (fun p => (.intV (ofTwos p.1 4294967296), p.2)) := by
  simp only [parseV]
  norm_num

theorem parseV_i64 (f : Nat) (s : List Nat) :
    parseV (f + 1) (211 :: s) =
      (readBE 8 s).map (fun p => (.intV (ofTwos p.1 18446744073709551616), p.2)) := by
  simp only [parseV]
  norm_num

theorem parseV_str8 (f : Nat) (s : List Nat) :
    parseV (f + 1) (217 :: s) =
      (readBE 1 s).bind (fun p =>
        (takeExact p.1 p.2).map (fun q => (.strV q.1, q.2))) := by
  simp only [parseV]
  norm_num

theorem parseV_str16 (f : Nat) (s : List Nat) :
    parseV (f + 1) (218 :: s) =
      (readBE 2 s).bind (fun p =>
        (takeExact p.1 p.2).map (fun q => (.strV q.1, q.2))) := by
  simp only [parseV]
  norm_num

theorem parseV_str32 (f : Nat) (s : List Nat) :
    parseV (f + 1) (219 :: s) =
      (readBE 4 s).bind (fun p =>
        (takeExact p.1 p.2).map (fun q => (.strV q.1, q.2))) := by
  simp only [parseV]
  norm_num

theorem parseV_arr16 (f : Nat) (s : List Nat) :
    parseV (f + 1) (220 :: s) =
      (readBE 2 s).bind (fun p =>
        (parseElems f p.1 p.2).map (fun q => (.arrV q.1, q.2))) := by
  simp only [parseV]
  norm_num

theorem parseV_arr32 (f : Nat) (s : List Nat) :
    parseV (f + 1) (221 :: s) =
      (readBE 4 s).bind (fun p =>
        (parseElems f p.1 p.2).map (fun q => (.arrV q.1, q.2))) := by
  simp only [parseV]
  norm_num

theorem parseV_map16 (f : Nat) (s : List Nat) :
    parseV (f + 1) (222 :: s) =
      (readBE 2 s).bind (fun p =>
        (parsePairs f p.1 p.2).map (fun q => (.mapV q.1, q.2))) := by
  simp only [parseV]
  norm_num

theorem parseV_map32 (f : Nat) (s : List Nat) :
    parseV (f + 1) (223 :: s) =
      (readBE 4 s).bind (fun p =>
        (parsePairs f p.1 p.2).map (fun q => (.mapV q.1, q.2))) := by
  simp only [parseV]
  norm_num

theorem parseV_fixneg (f b : Nat) (s : List Nat) (h1 : 224 ≤ b) (h2 : b < 256) :
    parseV (f + 1) (b :: s) = some (.intV ((b : Int) - 256), s) := by
  simp only [parseV]
  iterate 22 rw [if_neg (by omega)]
  rw [if_pos h2]

theorem needFuel_pos (v : MsgValue) : 1 ≤ needFuel v := by
  cases v <;> simp [needFuel]

theorem packInt_length (n : Int) (out : List Nat) (h : packInt n = some out) :
    1 ≤ out.length := by
  unfold packInt at h
  split_ifs at h <;>
    (simp only [Option.some.injEq] at h; subst h;
     simp [length_writeBE])

theorem packStr_length (s : List Nat) (out : List Nat)
    (h : packStr s = some out) : 1 ≤ out.length := by
  unfold packStr at h
  split_ifs at h <;>
    (simp only [Option.some.injEq] at h; subst h; simp)

theorem needFuel_le :
    ∀ (N : Nat),
      (∀ (v : MsgValue) (out : List Nat), sizeOf v ≤ N →
        packVal v = some out → needFuel v + 1 ≤ 2 * out.length) ∧
      (∀ (xs : List MsgValue) (out : List Nat), sizeOf xs ≤ N →
        packElems xs = some out → needFuelElems xs ≤ 2 * out.length) ∧
      (∀ (kvs : List (MsgValue × MsgValue)) (out : List Nat), sizeOf kvs ≤ N →
        packPairs kvs = some out → needFuelPairs kvs ≤ 2 * out.length) := by
  intro N
  induction N with
  | zero =>
    refine ⟨?_, ?_, ?_⟩
    · intro v out hsz _
      cases v <;> simp at hsz
    · intro xs out hsz _
      cases xs <;> simp at hsz
    · intro kvs out hsz _
      cases kvs <;> simp at hsz
  | succ N ihN =>
    obtain ⟨ihA, ihB, ihC⟩ := ihN
    refine ⟨?_, ?_, ?_⟩
    · intro v out hsz h
      cases v with
      | nilV =>
        simp only [packVal, Option.some.injEq] at h
        subst h; simp [needFuel]
      | boolV b =>
        cases b <;>
          (simp only [packVal, Option.some.injEq] at h; subst h;
           simp [needFuel])
      | intV n =>
        simp only [packVal] at h
        have := packInt_length n out h
        simp only [needFuel]
        omega
      | strV s =>
        simp only [packVal] at h
        have := packStr_length s out h
        simp only [needFuel]
        omega
      | arrV xs =>
        simp only [packVal, Option.bind_eq_some] at h
        obtain ⟨body, hbody, hg⟩ := h
        have hxs : sizeOf xs ≤ N := by
          simp only [MsgValue.arrV.sizeOf_spec] at hsz
          omega
        have hb := ihB xs body hxs hbody
        split_ifs at hg <;>
          (simp only [Option.some.injEq] at hg; subst hg;
           simp only [needFuel, List.length_cons, List.length_append,
             length_writeBE];
           omega)
      | mapV kvs =>
        simp only [packVal, Option.bind_eq_some] at h
        obtain ⟨body, hbody, hg⟩ := h
        have hkvs : sizeOf kvs ≤ N := by
          simp only [MsgValue.mapV.sizeOf_spec] at hsz
          omega
        have hb := ihC kvs body hkvs hbody
        split_ifs at hg <;>
          (simp only [Option.some.injEq] at hg; subst hg;
           simp only [needFuel, List.length_cons, List.length_append,
             length_writeBE];
           omega)
    · intro xs out hsz h
      cases xs with
      | nil =>
        simp only [packElems, Option.some.injEq] at h
        subst h; simp [needFuelElems]
      | cons x t =>
        simp only [packElems, Option.bind_eq_some, Option.map_eq_some'] at h
        obtain ⟨bx, hbx, bt, hbt, hout⟩ := h
        subst hout
        have hx : sizeOf x ≤ N := by
          simp only [List.cons.sizeOf_spec] at hsz
          omega
        have ht : sizeOf t ≤ N := by
          simp only [List.cons.sizeOf_spec] at hsz
          omega
        have h1 := ihA x bx hx hbx
        have h2 := ihB t bt ht hbt
        simp only [needFuelElems, List.length_append]
        omega
    · intro kvs out hsz h
      match kvs with
      | [] =>
        simp only [packPairs, Option.some.injEq] at h
        subst h; simp [needFuelPairs]
      | (k, v) :: t =>
        simp only [packPairs, Option.bind_eq_some, Option.map_eq_some'] at h
        obtain ⟨bk, hbk, bv, hbv, bt, hbt, hout⟩ := h
        subst hout
        have hk : sizeOf k ≤ N := by
          simp only [List.cons.sizeOf_spec, Prod.mk.sizeOf_spec] at hsz
          omega
        have hv : sizeOf v ≤ N := by
          simp only [List.cons.sizeOf_spec, Prod.mk.sizeOf_spec] at hsz
          omega
        have ht : sizeOf t ≤ N := by
          simp only [List.cons.sizeOf_spec] at hsz
          omega
        have h1 := ihA k bk hk hbk
        have h2 := ihA v bv hv hbv
        have h3 := ihC t bt ht hbt
        simp only [needFuelPairs, List.length_append]
        omega

theorem pow2_16 : (256 : Nat) ^ 2 = 65536 := by norm_num

theorem pow4_32 : (256 : Nat) ^ 4 = 4294967296 := by norm_num

theorem pow8_64 : (256 : Nat) ^ 8 = 18446744073709551616 := by norm_num

theorem takeExact_prefix (s rest : List Nat) :
    takeExact s.length (s ++ rest) = some (s, rest) := by
  unfold takeExact
  rw [if_pos (by simp), List.take_left, List.drop_left]

theorem parseElems_zero (f : Nat) (s : List Nat) :
    parseElems f 0 s = some ([], s) := by
  cases f <;> rfl

theorem parsePairs_zero (f : Nat) (s : List Nat) :
    parsePairs f 0 s = some ([], s) := by
  cases f <;> rfl

theorem parseElems_succ (f n : Nat) (s : List Nat) :
    parseElems (f + 1) (n + 1) s =
      (parseV f s).bind (fun p =>
        (parseElems f n p.2).map (fun q => (p.1 :: q.1, q.2))) := rfl

theorem parsePairs_succ (f n : Nat) (s : List Nat) :
    parsePairs (f + 1) (n + 1) s =
      (parseV f s).bind (fun p =>
        (parseV f p.2).bind (fun p' =>
          (parsePairs f n p'.2).map (fun q => ((p.1, p'.1) :: q.1, q.2)))) := rfl

theorem parseV_packVal :
    ∀ (f : Nat),
      (∀ (v : MsgValue) (out rest : List Nat), needFuel v ≤ f →
        packVal v = some out → parseV f (out ++ rest) = some (v, rest)) ∧
      (∀ (xs : List MsgValue) (out rest : List Nat), needFuelElems xs ≤ f →
        packElems xs = some out →
        parseElems f xs.length (out ++ rest) = some (xs, rest)) ∧
      (∀ (kvs : List (MsgValue × MsgValue)) (out rest : List Nat),
        needFuelPairs kvs ≤ f → packPairs kvs = some out →
        parsePairs f kvs.length (out ++ rest) = some (kvs, rest)) := by
  intro f
  induction f with
  | zero =>
    refine ⟨?_, ?_, ?_⟩
    · intro v out rest hfuel _
      have := needFuel_pos v
      omega
    · intro xs out rest hfuel h
      match xs with
      | [] =>
        simp only [packElems, Option.some.injEq] at h
        subst h
        simp only [List.nil_append, List.length_nil]
        exact parseElems_zero 0 rest
      | x :: t =>
        simp only [needFuelElems] at hfuel
        omega
    · intro kvs out rest hfuel h
      match kvs with
      | [] =>
        simp only [packPairs, Option.some.injEq] at h
        subst h
        simp only [List.nil_append, List.length_nil]
        exact parsePairs_zero 0 rest
      | (k, v) :: t =>
        simp only [needFuelPairs] at hfuel
        omega
  | succ f ihf =>
    obtain ⟨ihA, ihB, ihC⟩ := ihf
    refine ⟨?_, ?_, ?_⟩
    · intro v out rest hfuel h
      cases v with
      | nilV =>
        simp only [packVal, Option.some.injEq] at h
        subst h
        simp only [List.cons_append, List.nil_append]
        exact parseV_nil f rest
      | boolV b =>
        cases b <;>
          (simp only [packVal, Option.some.injEq] at h; subst h;
           simp only [List.cons_append, List.nil_append])
        · exact parseV_false f rest
        · exact parseV_true f rest
      | intV n =>
        simp only [packVal] at h
        unfold packInt at h
        split_ifs at h with c0 c1 c2 c3 c4 c5 c6 c7 c8 c9 c10 <;>
          simp only [Option.some.injEq] at h
        · -- positive fixint
          subst h
          simp only [List.cons_append, List.nil_append,
            parseV_fixpos f _ rest c1, Option.some.injEq, Prod.mk.injEq,
            MsgValue.intV.injEq]
          exact ⟨by omega, trivial⟩
        · -- uint8
          subst h
          simp only [List.cons_append, List.nil_append, parseV_u8,
            readBE_one, Option.map_some', Option.some.injEq, Prod.mk.injEq,
            MsgValue.intV.injEq]
          exact ⟨by omega, trivial⟩
        · -- uint16
          subst h
          simp only [List.cons_append, List.append_assoc, parseV_u16,
            readBE_writeBE 2 _ (by rw [pow2_16]; exact c3),
            Option.map_some', Option.some.injEq, Prod.mk.injEq,
            MsgValue.intV.injEq]
          exact ⟨by omega, trivial⟩
        · -- uint32
          subst h
          simp only [List.cons_append, List.append_assoc, parseV_u32,
            readBE_writeBE 4 _ (by rw [pow4_32]; exact c4),
            Option.map_some', Option.some.injEq, Prod.mk.injEq,
            MsgValue.intV.injEq]
          exact ⟨by omega, trivial⟩
        · -- uint64
          subst h
          simp only [List.cons_append, List.append_assoc, parseV_u64,
            readBE_writeBE 8 _ (by rw [pow8_64]; exact c5),
            Option.map_some', Option.some.injEq, Prod.mk.injEq,
            MsgValue.intV.injEq]
          exact ⟨by omega, trivial⟩
        · -- negative fixint
          subst h
          simp only [List.cons_append, List.nil_append,
            parseV_fixneg f ((n + 256).toNat) rest (by omega) (by omega), Option.some.injEq,
            Prod.mk.injEq, MsgValue.intV.injEq]
          exact ⟨by omega, trivial⟩
        · -- int8
          subst h
          simp only [List.cons_append, List.nil_append, parseV_i8,
            readBE_one, Option.map_some', ofTwos, Option.some.injEq,
            Prod.mk.injEq, MsgValue.intV.injEq]
          rw [if_pos (by omega)]
          exact ⟨by omega, trivial⟩
        · -- int16
          subst h
          simp only [List.cons_append, List.append_assoc, parseV_i16,
            readBE_writeBE 2 ((n + 65536).toNat) (by rw [pow2_16]; omega) rest,
            Option.map_some', ofTwos, Option.some.injEq, Prod.mk.injEq,
            MsgValue.intV.injEq]
          rw [if_pos (by omega)]
          exact ⟨by omega, trivial⟩
        · -- int32
          subst h
          simp only [List.cons_append, List.append_assoc, parseV_i32,
            readBE_writeBE 4 ((n + 4294967296).toNat)
              (by rw [pow4_32]; omega) rest,
            Option.map_some', ofTwos, Option.some.injEq, Prod.mk.injEq,
            MsgValue.intV.injEq]
          rw [if_pos (by omega)]
          exact ⟨by omega, trivial⟩
        · -- int64
          subst h
          simp only [List.cons_append, List.append_assoc, parseV_i64,
            readBE_writeBE 8 ((n + 18446744073709551616).toNat)
              (by rw [pow8_64]; omega) rest,
            Option.map_some', ofTwos, Option.some.injEq, Prod.mk.injEq,
            MsgValue.intV.injEq]
          rw [if_pos (by omega)]
          exact ⟨by omega, trivial⟩
      | strV s =>
        simp only [packVal] at h
        unfold packStr at h
        split_ifs at h with c1 c2 c3 c4 <;>
          simp only [Option.some.injEq] at h
        · -- fixstr
          subst h
          simp only [List.cons_append, parseV_fixstr f _ _ c1,
            takeExact_prefix, Option.map_some']
        · -- str8
          subst h
          simp only [List.cons_append, parseV_str8, readBE_one,
            Option.some_bind, takeExact_prefix, Option.map_some']
        · -- str16
          subst h
          simp only [List.cons_append, List.append_assoc, parseV_str16,
            readBE_writeBE 2 _ (by rw [pow2_16]; exact c3),
            Option.some_bind, takeExact_prefix, Option.map_some']
        · -- str32
          subst h
          simp only [List.cons_append, List.append_assoc, parseV_str32,
            readBE_writeBE 4 _ (by rw [pow4_32]; exact c4),
            Option.some_bind, takeExact_prefix, Option.map_some']
      | arrV xs =>
        simp only [packVal, Option.bind_eq_some] at h
        obtain ⟨body, hbody, hg⟩ := h
        simp only [needFuel] at hfuel
        have helems : parseElems f xs.length (body ++ rest) = some (xs, rest) :=
          ihB xs body rest (by omega) hbody
        split_ifs at hg with c1 c2 c3 <;>
          simp only [Option.some.injEq] at hg
        · subst hg
          simp only [List.cons_append, parseV_fixarr f _ _ c1, helems,
            Option.map_some']
        · subst hg
          simp only [List.cons_append, List.append_assoc, parseV_arr16,
            readBE_writeBE 2 _ (by rw [pow2_16]; exact c2),
            Option.some_bind, helems, Option.map_some']
        · subst hg
          simp only [List.cons_append, List.append_assoc, parseV_arr32,
            readBE_writeBE 4 _ (by rw [pow4_32]; exact c3),
            Option.some_bind, helems, Option.map_some']
      | mapV kvs =>
        simp only [packVal, Option.bind_eq_some] at h
        obtain ⟨body, hbody, hg⟩ := h
        simp only [needFuel] at hfuel
        have hpairs : parsePairs f kvs.length (body ++ rest) = some (kvs, rest) :=
          ihC kvs body rest (by omega) hbody
        split_ifs at hg with c1 c2 c3 <;>
          simp only [Option.some.injEq] at hg
        · subst hg
          simp only [List.cons_append, parseV_fixmap f _ _ c1, hpairs,
            Option.map_some']
        · subst hg
          simp only [List.cons_append, List.append_assoc, parseV_map16,
            readBE_writeBE 2 _ (by rw [pow2_16]; exact c2),
            Option.some_bind, hpairs, Option.map_some']
        · subst hg
          simp only [List.cons_append, List.append_assoc, parseV_map32,
            readBE_writeBE 4 _ (by rw [pow4_32]; exact c3),
            Option.some_bind, hpairs, Option.map_some']
    · intro xs out rest hfuel h
      match xs with
      | [] =>
        simp only [packElems, Option.some.injEq] at h
        subst h
        simp only [List.nil_append, List.length_nil]
        exact parseElems_zero _ rest
      | x :: t =>
        simp only [packElems, Option.bind_eq_some, Option.map_eq_some'] at h
        obtain ⟨bx, hbx, bt, hbt, hout⟩ := h
        subst hout
        simp only [needFuelElems] at hfuel
        simp only [List.length_cons, List.append_assoc]
        rw [parseElems_succ]
        simp only [ihA x bx (bt ++ rest) (by omega) hbx, Option.some_bind,
          ihB t bt rest (by omega) hbt, Option.map_some']
    · intro kvs out rest hfuel h
      match kvs with
      | [] =>
        simp only [packPairs, Option.some.injEq] at h
        subst h
        simp only [List.nil_append, List.length_nil]
        exact parsePairs_zero _ rest
      | (k, v) :: t =>
        simp only [packPairs, Option.bind_eq_some, Option.map_eq_some'] at h
        obtain ⟨bk, hbk, bv, hbv, bt, hbt, hout⟩ := h
        subst hout
        simp only [needFuelPairs] at hfuel
        simp only [List.length_cons, List.append_assoc]
        rw [parsePairs_succ]
        simp only [ihA k bk (bv ++ (bt ++ rest)) (by omega) hbk,
          Option.some_bind, ihA v bv (bt ++ rest) (by omega) hbv,
          ihC t bt rest (by omega) hbt, Option.map_some']

/-- The msgpack round trip: unpacking a packed value recovers it. -/
theorem msgUnpack_packVal (v : MsgValue) (out : List Nat)
    (h : packVal v = some out) : msgUnpack out = some v := by
  have hsz := (needFuel_le (sizeOf v)).1 v out le_rfl h
  have hfuel : needFuel v ≤ 2 * out.length + 1 := by omega
  have hp := (parseV_packVal (2 * out.length + 1)).1 v out [] hfuel h
  rw [List.append_nil] at hp
  unfold msgUnpack
  rw [hp]

theorem packInt_lt (n : Int) (out : List Nat) (h : packInt n = some out) :
    ∀ b ∈ out, b < 256 := by
  unfold packInt at h
  split_ifs at h with c0 c1 c2 c3 c4 c5 c6 c7 c8 c9 c10 <;>
    simp only [Option.some.injEq] at h <;> subst h <;>
    intro b hb <;>
    simp only [List.mem_cons, List.not_mem_nil, or_false] at hb
  · omega
  · rcases hb with h | h <;> omega
  · rcases hb with h | h
    · omega
    · exact writeBE_lt 2 _ (by rw [pow2_16]; exact c3) _ h
  · rcases hb with h | h
    · omega
    · exact writeBE_lt 4 _ (by rw [pow4_32]; exact c4) _ h
  · rcases hb with h | h
    · omega
    · exact writeBE_lt 8 _ (by rw [pow8_64]; exact c5) _ h
  · omega
  · rcases hb with h | h <;> omega
  · rcases hb with h | h
    · omega
    · exact writeBE_lt 2 _ (by rw [pow2_16]; omega) _ h
  · rcases hb with h | h
    · omega
    · exact writeBE_lt 4 _ (by rw [pow4_32]; omega) _ h
  · rcases hb with h | h
    · omega
    · exact writeBE_lt 8 _ (by rw [pow8_64]; omega) _ h

theorem packStr_lt (s : List Nat) (out : List Nat)
    (hs : ∀ b ∈ s, b < 256) (h : packStr s = some out) :
    ∀ b ∈ out, b < 256 := by
  unfold packStr at h
  split_ifs at h with c1 c2 c3 c4 <;>
    simp only [Option.some.injEq] at h <;> subst h <;>
    intro b hb <;>
    simp only [List.mem_cons, List.mem_append] at hb
  · rcases hb with h | h
    · omega
    · exact hs _ h
  · rcases hb with h | h | h
    · omega
    · omega
    · exact hs _ h
  · rcases hb with h | h | h
    · omega
    · exact writeBE_lt 2 _ (by rw [pow2_16]; exact c3) _ h
    · exact hs _ h
  · rcases hb with h | h | h
    · omega
    · exact writeBE_lt 4 _ (by rw [pow4_32]; exact c4) _ h
    · exact hs _ h

theorem packVal_lt :
    ∀ (N : Nat),
      (∀ (v : MsgValue) (out : List Nat), sizeOf v ≤ N → v.wfB = true →
        packVal v = some out → ∀ b ∈ out, b < 256) ∧
      (∀ (xs : List MsgValue) (out : List Nat), sizeOf xs ≤ N →
        wfBElems xs = true → packElems xs = some out → ∀ b ∈ out, b < 256) ∧
      (∀ (kvs : List (MsgValue × MsgValue)) (out : List Nat), sizeOf kvs ≤ N →
        wfBPairs kvs = true → packPairs kvs = some out → ∀ b ∈ out, b < 256) := by
  intro N
  induction N with
  | zero =>
    refine ⟨?_, ?_, ?_⟩
    · intro v out hsz _ _
      cases v <;> simp at hsz
    · intro xs out hsz _ _
      cases xs <;> simp at hsz
    · intro kvs out hsz _ _
      cases kvs <;> simp at hsz
  | succ N ihN =>
    obtain ⟨ihA, ihB, ihC⟩ := ihN
    refine ⟨?_, ?_, ?_⟩
    · intro v out hsz hwf h
      cases v with
      | nilV =>
        simp only [packVal, Option.some.injEq] at h
        subst h
        intro b hb
        simp only [List.mem_cons, List.not_mem_nil, or_false] at hb
        omega
      | boolV bb =>
        cases bb <;>
          (simp only [packVal, Option.some.injEq] at h; subst h;
           intro b hb;
           simp only [List.mem_cons, List.not_mem_nil, or_false] at hb;
           omega)
      | intV n =>
        simp only [packVal] at h
        exact packInt_lt n out h
      | strV s =>
        simp only [packVal] at h
        simp only [MsgValue.wfB, List.all_eq_true, decide_eq_true_eq] at hwf
        exact packStr_lt s out hwf h
      | arrV xs =>
        simp only [packVal, Option.bind_eq_some] at h
        obtain ⟨body, hbody, hg⟩ := h
        simp only [MsgValue.wfB] at hwf
        have hxs : sizeOf xs ≤ N := by
          simp only [MsgValue.arrV.sizeOf_spec] at hsz
          omega
        have hbodyLt := ihB xs body hxs hwf hbody
        split_ifs at hg with c1 c2 c3 <;>
          simp only [Option.some.injEq] at hg <;> subst hg <;>
          intro b hb <;>
          simp only [List.mem_cons, List.mem_append] at hb
        · rcases hb with h | h
          · omega
          · exact hbodyLt _ h
        · rcases hb with h | h | h
          · omega
          · exact writeBE_lt 2 _ (by rw [pow2_16]; exact c2) _ h
          · exact hbodyLt _ h
        · rcases hb with h | h | h
          · omega
          · exact writeBE_lt 4 _ (by rw [pow4_32]; exact c3) _ h
          · exact hbodyLt _ h
      | mapV kvs =>
        simp only [packVal, Option.bind_eq_some] at h
        obtain ⟨body, hbody, hg⟩ := h
        simp only [MsgValue.wfB] at hwf
        have hkvs : sizeOf kvs ≤ N := by
          simp only [MsgValue.mapV.sizeOf_spec] at hsz
          omega
        have hbodyLt := ihC kvs body hkvs hwf hbody
        split_ifs at hg with c1 c2 c3 <;>
          simp only [Option.some.injEq] at hg <;> subst hg <;>
          intro b hb <;>
          simp only [List.mem_cons, List.mem_append] at hb
        · rcases hb with h | h
          · omega
          · exact hbodyLt _ h
        · rcases hb with h | h | h
          · omega
          · exact writeBE_lt 2 _ (by rw [pow2_16]; exact c2) _ h
          · exact hbodyLt _ h
        · rcases hb with h | h | h
          · omega
          · exact writeBE_lt 4 _ (by rw [pow4_32]; exact c3) _ h
          · exact hbodyLt _ h
    · intro xs out hsz hwf h
      match xs with
      | [] =>
        simp only [packElems, Option.some.injEq] at h
        subst h
        intro b hb
        simp at hb
      | x :: t =>
        simp only [packElems, Option.bind_eq_some, Option.map_eq_some'] at h
        obtain ⟨bx, hbx, bt, hbt, hout⟩ := h
        subst hout
        simp only [wfBElems, Bool.and_eq_true] at hwf
        have hx : sizeOf x ≤ N := by
          simp only [List.cons.sizeOf_spec] at hsz
          omega
        have ht : sizeOf t ≤ N := by
          simp only [List.cons.sizeOf_spec] at hsz
          omega
        intro b hb
        simp only [List.mem_append] at hb
        rcases hb with h | h
        · exact ihA x bx hx hwf.1 hbx _ h
        · exact ihB t bt ht hwf.2 hbt _ h
    · intro kvs out hsz hwf h
      match kvs with
      | [] =>
        simp only [packPairs, Option.some.injEq] at h
        subst h
        intro b hb
        simp at hb
      | (k, v) :: t =>
        simp only [packPairs, Option.bind_eq_some, Option.map_eq_some'] at h
        obtain ⟨bk, hbk, bv, hbv, bt, hbt, hout⟩ := h
        subst hout
        simp only [wfBPairs, Bool.and_eq_true] at hwf
        have hk : sizeOf k ≤ N := by
          simp only [List.cons.sizeOf_spec, Prod.mk.sizeOf_spec] at hsz
          omega
        have hv : sizeOf v ≤ N := by
          simp only [List.cons.sizeOf_spec, Prod.mk.sizeOf_spec] at hsz
          omega
        have ht : sizeOf t ≤ N := by
          simp only [List.cons.sizeOf_spec] at hsz
          omega
        intro b hb
        simp only [List.mem_append] at hb
        rcases hb with (h | h) | h
        · exact ihA k bk hk hwf.1.1 hbk _ h
        · exact ihA v bv hv hwf.1.2 hbv _ h
        · exact ihC t bt ht hwf.2 hbt _ h

theorem msgLookup_head (s : List Nat) (v : MsgValue)
    (t : List (MsgValue × MsgValue)) :
    msgLookup ((.strV s, v) :: t) s = some v := by
  simp [msgLookup]

theorem msgLookup_skip (s key : List Nat) (v : MsgValue)
    (t : List (MsgValue × MsgValue)) (h : ¬ s = key) :
    msgLookup ((.strV s, v) :: t) key = msgLookup t key := by
  simp [msgLookup, h]

theorem decIntList_intListMsg (l : List Int) :
    decIntList (intListMsg l) = .ok l := by
  simp only [decIntList, intListMsg]
  induction l with
  | nil => rfl
  | cons x t ih =>
    simp only [List.map_cons, List.mapM_cons, ih, decInt]
    rfl

theorem decIntMat_intMatMsg (m : List (List Int)) :
    decIntMat (intMatMsg m) = .ok m := by
  simp only [decIntMat, intMatMsg]
  induction m with
  | nil => rfl
  | cons x t ih =>
    simp only [List.map_cons, List.mapM_cons, ih, decIntList_intListMsg]
    rfl

theorem decSpin_key (sc : SpinChannel) : decSpin sc.key = some sc := by
  cases sc <;> decide

theorem decSpinMap_map {α : Type} (dec : MsgValue → Except RecErr α)
    (f : α → MsgValue) (hdec : ∀ a, dec (f a) = .ok a)
    (xs : List (SpinChannel × α)) :
    decSpinMap dec (.mapV (xs.map fun p => (.strV p.1.key, f p.2))) =
      .ok xs := by
  simp only [decSpinMap]
  induction xs with
  | nil => rfl
  | cons x t ih =>
    simp only [List.map_cons, List.mapM_cons, decSpin_key, hdec, ih]
    rfl

theorem decLabels_map (xs : List (List Nat × List Int)) :
    decLabels (.mapV (xs.map fun p => (.strV p.1, intListMsg p.2))) =
      .ok xs := by
  simp only [decLabels]
  induction xs with
  | nil => rfl
  | cons x t ih =>
    simp only [List.map_cons, List.mapM_cons, decIntList_intListMsg, ih]
    rfl

theorem exceptBind_ok {ε α β : Type} (a : α) (f : α → Except ε β) :
    (Except.ok a : Except ε α) >>= f = f a := rfl

theorem exceptMap_ok {ε α β : Type} (a : α) (f : α → β) :
    Except.map f (Except.ok a : Except ε α) = Except.ok (f a) := rfl

theorem exceptFunctor_ok {ε α β : Type} (a : α) (f : α → β) :
    f <$> (Except.ok a : Except ε α) = Except.ok (f a) := rfl

theorem latticeFromDict_asDict (l : Lattice) :
    latticeFromDict
      [(.strV kModule, .strV kLatMod),
       (.strV kClass, .strV (strBytes "Lattice")),
       (.strV (strBytes "matrix"), intMatMsg l.matrix)] = .ok l := by
  simp +decide [latticeFromDict, reqField, msgLookup, decIntMat_intMatMsg,
    exceptBind_ok, exceptMap_ok, exceptFunctor_ok]

theorem decLattice_asDict (l : Lattice) :
    decLattice l.asDict = .ok l := by
  simp +decide [decLattice, Lattice.asDict, msgLookup,
    latticeFromDict_asDict, exceptBind_ok, exceptMap_ok, exceptFunctor_ok]

theorem dosFromDict_asDict (d : DosData) :
    dosFromDict
      [(.strV kModule, .strV kDosMod),
       (.strV kClass, .strV (strBytes "Dos")),
       (.strV (strBytes "efermi"), .intV d.efermi),
       (.strV (strBytes "energies"), intListMsg d.energies),
       (.strV (strBytes "densities"),
         .mapV (d.densities.map fun p => (.strV p.1.key, intListMsg p.2)))] =
      .ok d := by
  simp +decide [dosFromDict, reqField, msgLookup, decInt,
    decIntList_intListMsg,
    decSpinMap_map decIntList intListMsg decIntList_intListMsg,
    exceptBind_ok, exceptMap_ok, exceptFunctor_ok]

theorem decDos_asDict (d : DosData) : decDos d.asDict = .ok d := by
  simp +decide [decDos, DosData.asDict, msgLookup, dosFromDict_asDict,
    exceptBind_ok, exceptMap_ok, exceptFunctor_ok]

theorem mapM_decDos (pd : List DosData) :
    (pd.map DosData.asDict).mapM decDos = .ok pd := by
  induction pd with
  | nil => rfl
  | cons x t ih =>
    simp only [List.map_cons, List.mapM_cons, decDos_asDict, ih]
    rfl

theorem mapM_loop_decDos (pd acc : List DosData) :
    List.mapM.loop decDos (pd.map DosData.asDict) acc =
      .ok (acc.reverse ++ pd) := by
  induction pd generalizing acc with
  | nil => simp [List.mapM.loop]; rfl
  | cons x t ih =>
    simp [List.mapM.loop, decDos_asDict, ih]
    rfl

theorem processDecoded_asDict (o : DomainObj) :
    processDecoded o.asDict = .ok (.objO o) := by
  cases o with
  | lat l =>
    simp +decide [DomainObj.asDict, Lattice.asDict, processDecoded,
      msgLookup, latticeFromDict_asDict, exceptBind_ok, exceptMap_ok,
      exceptFunctor_ok]
  | dos d =>
    simp +decide [DomainObj.asDict, DosData.asDict, processDecoded,
      msgLookup, dosFromDict_asDict, exceptBind_ok, exceptMap_ok,
      exceptFunctor_ok]
  | bs b =>
    simp +decide [DomainObj.asDict, processDecoded, msgLookup,
      BSData.fieldsMsg, bsDataFromDict, reqField, decLattice_asDict,
      decInt, decIntMat_intMatMsg,
      decSpinMap_map decIntMat intMatMsg decIntMat_intMatMsg,
      exceptBind_ok, exceptMap_ok, exceptFunctor_ok]
  | bsLine b lbls =>
    simp +decide [DomainObj.asDict, processDecoded, msgLookup,
      BSData.fieldsMsg, bsLineFromDict, bsDataFromDict, reqField,
      decLattice_asDict, decInt, decIntMat_intMatMsg,
      decSpinMap_map decIntMat intMatMsg decIntMat_intMatMsg,
      decLabels_map, List.cons_append, List.nil_append,
      exceptBind_ok, exceptMap_ok, exceptFunctor_ok]
  | cdos total pd =>
    simp +decide [DomainObj.asDict, processDecoded, msgLookup,
      cdosFromDict, reqField, decDos_asDict, mapM_decDos,
      mapM_loop_decDos, exceptBind_ok, exceptMap_ok, exceptFunctor_ok]

/-! ## Helper lemmas about the resters -/

theorem truthy_dict_of_lookup (kvs : List (String × PyVal)) (k : String)
    (v : PyVal) (h : kvs.lookup k = some v) :
    (PyVal.dictV kvs).truthy = true := by
  cases kvs with
  | nil => simp [List.lookup] at h
  | cons x t => simp [PyVal.truthy]

theorem pyGet_dict (kvs : List (String × PyVal)) (k : String) (v : PyVal)
    (h : kvs.lookup k = some v) : PyVal.get (.dictV kvs) k = v := by
  simp [PyVal.get, h]

theorem pyGet_dict_none (kvs : List (String × PyVal)) (k : String)
    (h : kvs.lookup k = none) : PyVal.get (.dictV kvs) k = .noneV := by
  simp [PyVal.get, h]

theorem pyIndex_dict (kvs : List (String × PyVal)) (k : String) (v : PyVal)
    (h : kvs.lookup k = some v) : pyIndex (.dictV kvs) k = .ok v := by
  simp [pyIndex, h]

theorem pyIndex_dict_none (kvs : List (String × PyVal)) (k : String)
    (h : kvs.lookup k = none) :
    pyIndex (.dictV kvs) k = .error (.malformedDocument k) := by
  simp [pyIndex, h]

theorem exceptBindOk {ε α β : Type} (a : α) (f : α → Except ε β) :
    (Except.ok a : Except ε α).bind f = f a := rfl

theorem exceptBindErr {ε α β : Type} (e : ε) (f : α → Except ε β) :
    (Except.error e : Except ε α).bind f = .error e := rfl

/-- Line-mode resolution success: the `path_type` entry exists and holds a
`task_id`. -/
theorem resolveBsTask_line_ok (bsDict entry : List (String × PyVal))
    (dosField : PyVal) (mid : String) (p : BSPathType) (tid : PyVal)
    (hlook : bsDict.lookup p.value = some (.dictV entry))
    (htid : entry.lookup "task_id" = some tid) :
    resolveBsTask (.dictV bsDict) dosField mid p true = .ok tid := by
  have htruthy : (PyVal.get (.dictV bsDict) p.value).truthy = true := by
    rw [pyGet_dict _ _ _ hlook]
    exact truthy_dict_of_lookup _ _ _ htid
  simp only [resolveBsTask, if_pos rfl, htruthy,
    pyIndex_dict _ _ _ hlook, exceptBindOk, pyIndex_dict _ _ _ htid,
    if_true]

/-- Line-mode resolution failure: the `path_type` key is absent. -/
theorem resolveBsTask_line_absent (bsDict : List (String × PyVal))
    (dosField : PyVal) (mid : String) (p : BSPathType)
    (hlook : bsDict.lookup p.value = none) :
    resolveBsTask (.dictV bsDict) dosField mid p true =
      .error (.mpRestError ("No " ++ p.value ++
        " band structure data found for " ++ mid)) := by
  have hfalsy : (PyVal.get (.dictV bsDict) p.value).truthy = false := by
    rw [pyGet_dict_none _ _ hlook]
    rfl
  simp only [resolveBsTask, if_pos rfl, hfalsy, Bool.false_eq_true,
    if_false, if_true]

/-- Line-mode resolution failure: the `path_type` key maps to a falsy
value. -/
theorem resolveBsTask_line_falsy (bsDict : List (String × PyVal))
    (dosField : PyVal) (mid : String) (p : BSPathType) (v : PyVal)
    (hlook : bsDict.lookup p.value = some v) (hfalsy : v.truthy = false) :
    resolveBsTask (.dictV bsDict) dosField mid p true =
      .error (.mpRestError ("No " ++ p.value ++
        " band structure data found for " ++ mid)) := by
  have hf : (PyVal.get (.dictV bsDict) p.value).truthy = false := by
    rw [pyGet_dict _ _ _ hlook]
    exact hfalsy
  simp only [resolveBsTask, if_pos rfl, hf, Bool.false_eq_true, if_false,
    if_true]

/-- After a successful resolution, the orchestrator issues exactly one
object-store fetch, for the resolved task id. -/
theorem get_bs_trace_of_resolve (bandstructureField dosField : PyVal)
    (objStore : PyVal → List (String × PyVal)) (mid : String)
    (p : BSPathType) (lineMode : Bool) (tid : PyVal)
    (h : resolveBsTask bandstructureField dosField mid p lineMode = .ok tid) :
    (get_bandstructure_from_material_id bandstructureField dosField objStore
      mid p lineMode).2 = [tid] := by
  unfold get_bandstructure_from_material_id
  rw [h]
  cases hq : get_bandstructure_from_task_id objStore tid with
  | error e => simp only [hq]
  | ok obj =>
    simp only [hq]
    by_cases ht : obj.truthy = true
    · rw [if_pos ht]
      cases hf : pyFirstStr obj with
      | error e => simp only [hf]
      | ok chars =>
        simp only [hf]
        cases hd : decodeChain chars with
        | error e => simp only [hd]
        | ok data => simp only [hd]
    · rw [if_neg ht]

theorem queryObjData_ok (objStore : PyVal → List (String × PyVal))
    (tid : PyVal) (v : PyVal)
    (hdata : (objStore tid).lookup "data" = some v)
    (hnn : v.isNone = false) : queryObjData objStore tid = .ok v := by
  simp only [queryObjData, hdata, hnn, Bool.false_eq_true, if_false]

theorem queryObjData_err_none (objStore : PyVal → List (String × PyVal))
    (tid : PyVal) (hdata : (objStore tid).lookup "data" = none) :
    queryObjData objStore tid = .error (.mpRestError "No object found") := by
  simp only [queryObjData, hdata]

theorem queryObjData_err_null (objStore : PyVal → List (String × PyVal))
    (tid : PyVal) (hdata : (objStore tid).lookup "data" = some .noneV) :
    queryObjData objStore tid = .error (.mpRestError "No object found") := by
  simp only [queryObjData, hdata, PyVal.isNone, if_true]

theorem isNone_iff (v : PyVal) : v.isNone = true ↔ v = .noneV := by
  cases v <;> simp [PyVal.isNone]

/-- Uniform (line_mode false) resolution reads only the `dos` field. -/
theorem resolveBsTask_uniform_frame (bsField bsField' dosField : PyVal)
    (mid : String) (p : BSPathType) :
    resolveBsTask bsField dosField mid p false =
      resolveBsTask bsField' dosField mid p false := rfl

theorem resolveBsTask_uniform_null (bsField : PyVal) (mid : String)
    (p : BSPathType) :
    resolveBsTask bsField .noneV mid p false =
      .error (.mpRestError ("No uniform band structure data found for " ++
        mid)) := rfl

theorem resolveBsTask_uniform_absent (bsField : PyVal)
    (dosDict : List (String × PyVal)) (mid : String) (p : BSPathType)
    (hlook : dosDict.lookup "total" = none) :
    resolveBsTask bsField (.dictV dosDict) mid p false =
      .error (.mpRestError ("No uniform band structure data found for " ++
        mid)) := by
  have hfalsy : (PyVal.get (.dictV dosDict) "total").truthy = false := by
    rw [pyGet_dict_none _ _ hlook]
    rfl
  simp only [resolveBsTask, hfalsy, Bool.false_eq_true, if_false]

theorem resolveBsTask_uniform_ok (bsField : PyVal)
    (dosDict t1 e1 : List (String × PyVal)) (mid : String) (p : BSPathType)
    (tid : PyVal)
    (htotal : dosDict.lookup "total" = some (.dictV t1))
    (hone : t1.lookup "1" = some (.dictV e1))
    (htid : e1.lookup "task_id" = some tid) :
    resolveBsTask bsField (.dictV dosDict) mid p false = .ok tid := by
  have htruthy : (PyVal.get (.dictV dosDict) "total").truthy = true := by
    rw [pyGet_dict _ _ _ htotal]
    exact truthy_dict_of_lookup _ _ _ hone
  simp only [resolveBsTask, htruthy, pyIndex_dict _ _ _ htotal,
    exceptBindOk, pyIndex_dict _ _ _ hone, pyIndex_dict _ _ _ htid, if_true,
    Bool.false_eq_true, if_false]

/-! ## The claims -/

/-- C1: For every valid domain object `O` (band-structure or
density-of-states, including nested polymorphic substructures), running the
decode chain (base64-decode, zlib-decompress, msgpack-unpack, then
polymorphic reconstruction of the `"data"` field) on `encode(O)`, where
`encode` is `base64(zlib(pack({"data": O})))`, returns an object equal to
`O`.  Validity means the object is representable in the wire format (its
msgpack packing exists and its string bodies are bytes). -/
theorem decode_encode_roundtrip (o : DomainObj)
    (hrep : (packVal (dataEnvelope o)).isSome = true)
    (hwf : (dataEnvelope o).wfB = true) :
    ∃ s, encodeObj o = some s ∧ decodeChain s = .ok (.objO o) := by
  obtain ⟨packed, hpack⟩ := Option.isSome_iff_exists.mp hrep
  refine ⟨b64encode (zlibCompressStored packed), ?_, ?_⟩
  · unfold encodeObj
    rw [hpack]
    rfl
  · have hpLt : ∀ b ∈ packed, b < 256 :=
      (packVal_lt (sizeOf (dataEnvelope o))).1 (dataEnvelope o) packed
        le_rfl hwf hpack
    have hzLt := zlibCompressStored_lt packed hpLt
    simp only [decodeChain, b64decodeStrict_b64encode _ hzLt,
      zlibDecompress_zlibCompressStored, msgUnpack_packVal _ _ hpack,
      dataEnvelope, extractAndReconstruct, msgLookup_head,
      processDecoded_asDict]

theorem decode_encode_roundtrip_witness :
    (packVal (dataEnvelope sampleBsLine)).isSome = true ∧
    (dataEnvelope sampleBsLine).wfB = true ∧
    ∃ s, encodeObj sampleBsLine = some s ∧
      decodeChain s = .ok (.objO sampleBsLine) :=
  ⟨by decide, by decide,
   decode_encode_roundtrip sampleBsLine (by decide) (by decide)⟩

/-- C2: For every material document whose bandstructure mapping contains
the requested path type with a `task_id`, line-mode resolution in
`get_bandstructure_from_material_id` extracts exactly that task id and
passes it to the object fetch; for a path type absent from the mapping,
resolution fails with the not-found error naming the path type and
material id. -/
theorem line_mode_resolution (bsDict entry : List (String × PyVal))
    (dosField : PyVal) (objStore : PyVal → List (String × PyVal))
    (mid : String) (p pAbsent : BSPathType) (tid : PyVal)
    (hlook : bsDict.lookup p.value = some (.dictV entry))
    (htid : entry.lookup "task_id" = some tid)
    (habsent : bsDict.lookup pAbsent.value = none) :
    resolveBsTask (.dictV bsDict) dosField mid p true = .ok tid ∧
    (get_bandstructure_from_material_id (.dictV bsDict) dosField objStore
      mid p true).2 = [tid] ∧
    resolveBsTask (.dictV bsDict) dosField mid pAbsent true =
      .error (.mpRestError ("No " ++ pAbsent.value ++
        " band structure data found for " ++ mid)) := by
  have hok := resolveBsTask_line_ok bsDict entry dosField mid p tid hlook htid
  exact ⟨hok,
    get_bs_trace_of_resolve _ _ _ _ _ _ _ hok,
    resolveBsTask_line_absent bsDict dosField mid pAbsent habsent⟩

theorem line_mode_resolution_witness :
    resolveBsTask
      (.dictV [("setyawan_curtarolo", .dictV [("task_id", .strVl "mp-1")])])
      .noneV "mp-149" .setyawan_curtarolo true = .ok (.strVl "mp-1") ∧
    (get_bandstructure_from_material_id
      (.dictV [("setyawan_curtarolo", .dictV [("task_id", .strVl "mp-1")])])
      .noneV (fun _ => []) "mp-149" .setyawan_curtarolo true).2 =
      [.strVl "mp-1"] ∧
    resolveBsTask
      (.dictV [("setyawan_curtarolo", .dictV [("task_id", .strVl "mp-1")])])
      .noneV "mp-149" .hinuma true =
      .error (.mpRestError ("No " ++ BSPathType.hinuma.value ++
        " band structure data found for " ++ "mp-149")) :=
  line_mode_resolution
    [("setyawan_curtarolo", .dictV [("task_id", .strVl "mp-1")])]
    [("task_id", .strVl "mp-1")] .noneV (fun _ => []) "mp-149"
    .setyawan_curtarolo .hinuma (.strVl "mp-1") rfl rfl rfl

/-- C3: With `line_mode` false, `get_bandstructure_from_material_id`
resolves against the document's `dos` field (its result does not depend on
the `bandstructure` field); it fails with the
"No uniform band structure data" error when that field is null or its
`total` entry is absent, and otherwise the task identifier used is
`total["1"].task_id`. -/
theorem uniform_mode_uses_dos (bsField bsField' dosField : PyVal)
    (mid : String) (p : BSPathType) :
    (resolveBsTask bsField dosField mid p false =
      resolveBsTask bsField' dosField mid p false) ∧
    (dosField = .noneV →
      resolveBsTask bsField dosField mid p false =
        .error (.mpRestError ("No uniform band structure data found for " ++
          mid))) ∧
    (∀ dosDict : List (String × PyVal), dosField = .dictV dosDict →
      dosDict.lookup "total" = none →
      resolveBsTask bsField dosField mid p false =
        .error (.mpRestError ("No uniform band structure data found for " ++
          mid))) ∧
    (∀ (dosDict t1 e1 : List (String × PyVal)) (tid : PyVal),
      dosField = .dictV dosDict →
      dosDict.lookup "total" = some (.dictV t1) →
      t1.lookup "1" = some (.dictV e1) →
      e1.lookup "task_id" = some tid →
      resolveBsTask bsField dosField mid p false = .ok tid ∧
      (get_bandstructure_from_material_id bsField dosField
        (fun _ => []) mid p false).2 = [tid]) := by
  refine ⟨resolveBsTask_uniform_frame bsField bsField' dosField mid p,
    ?_, ?_, ?_⟩
  · intro h
    subst h
    exact resolveBsTask_uniform_null bsField mid p
  · intro dosDict h hlook
    subst h
    exact resolveBsTask_uniform_absent bsField dosDict mid p hlook
  · intro dosDict t1 e1 tid h htotal hone htid
    subst h
    have hok := resolveBsTask_uniform_ok bsField dosDict t1 e1 mid p tid
      htotal hone htid
    exact ⟨hok, get_bs_trace_of_resolve _ _ _ _ _ _ _ hok⟩

theorem uniform_mode_uses_dos_witness :
    (resolveBsTask (.dictV [("x", .noneV)])
      (.dictV [("total", .dictV [("1", .dictV [("task_id", .strVl "mp-3")])])])
      "mp-10" .setyawan_curtarolo false =
     resolveBsTask .noneV
      (.dictV [("total", .dictV [("1", .dictV [("task_id", .strVl "mp-3")])])])
      "mp-10" .setyawan_curtarolo false) ∧
    (resolveBsTask (.dictV [("x", .noneV)])
      (.dictV [("total", .dictV [("1", .dictV [("task_id", .strVl "mp-3")])])])
      "mp-10" .setyawan_curtarolo false = .ok (.strVl "mp-3")) := by
  have h := uniform_mode_uses_dos (.dictV [("x", .noneV)]) .noneV
    (.dictV [("total", .dictV [("1", .dictV [("task_id", .strVl "mp-3")])])])
    "mp-10" .setyawan_curtarolo
  exact ⟨h.1,
    (h.2.2.2 [("total", .dictV [("1", .dictV [("task_id", .strVl "mp-3")])])]
      [("1", .dictV [("task_id", .strVl "mp-3")])]
      [("task_id", .strVl "mp-3")] (.strVl "mp-3") rfl rfl rfl rfl).1⟩

theorem fetchAndDecodeDos_trace (objStore : PyVal → List (String × PyVal))
    (tid : PyVal) : (fetchAndDecodeDos objStore tid).2 = [tid] := by
  unfold fetchAndDecodeDos
  cases hq : get_dos_from_task_id objStore tid with
  | error e => simp only [hq]
  | ok obj =>
    simp only [hq]
    by_cases ht : obj.truthy = true
    · rw [if_pos ht]
      cases hf : pyFirstStr obj with
      | error e => simp only [hf]
      | ok chars =>
        simp only [hf]
        cases hd : decodeChain chars with
        | error e => simp only [hd]
        | ok data => simp only [hd]
    · rw [if_neg ht]

/-- C4: DOS resolution in `get_dos_from_material_id`: a document with
`dos = {"total": {"1": {"task_id": tid}}}` resolves `tid` and fetches
exactly it; a document with `dos = null` fails with the not-found error
naming the material id; a document with `dos = {"total": {}}` (the `"1"`
key missing) fails with the malformed-document error (the uncaught
`KeyError "1"`), never a silent default. -/
theorem dos_resolution (docDict dosDict t1 e1 : List (String × PyVal))
    (objStore : PyVal → List (String × PyVal)) (mid : String) (tid : PyVal) :
    (docDict.lookup "dos" = some (.dictV dosDict) →
      dosDict.lookup "total" = some (.dictV t1) →
      t1.lookup "1" = some (.dictV e1) →
      e1.lookup "task_id" = some tid →
      (get_dos_from_material_id (.dictV docDict) objStore mid).2 = [tid]) ∧
    (docDict.lookup "dos" = some .noneV →
      get_dos_from_material_id (.dictV docDict) objStore mid =
        (.error (.mpRestError ("No density of states data found for " ++
          mid)), [])) ∧
    (docDict.lookup "dos" = some (.dictV dosDict) →
      dosDict.lookup "total" = some (.dictV []) →
      get_dos_from_material_id (.dictV docDict) objStore mid =
        (.error (.malformedDocument "1"), [])) := by
  refine ⟨?_, ?_, ?_⟩
  · intro hdos htotal hone htid
    have htruthy : (PyVal.dictV dosDict).truthy = true :=
      truthy_dict_of_lookup _ _ _ htotal
    simp only [get_dos_from_material_id, pyIndex_dict _ _ _ hdos, htruthy,
      if_true, pyIndex_dict _ _ _ htotal, exceptBindOk,
      pyIndex_dict _ _ _ hone, pyIndex_dict _ _ _ htid,
      fetchAndDecodeDos_trace]
  · intro hdos
    simp only [get_dos_from_material_id, pyIndex_dict _ _ _ hdos,
      PyVal.truthy, Bool.false_eq_true, if_false]
  · intro hdos htotal
    have htruthy : (PyVal.dictV dosDict).truthy = true :=
      truthy_dict_of_lookup _ _ _ htotal
    have hone : (List.lookup "1" ([] : List (String × PyVal))) = none := rfl
    simp only [get_dos_from_material_id, pyIndex_dict _ _ _ hdos, htruthy,
      if_true, pyIndex_dict _ _ _ htotal, exceptBindOk,
      pyIndex_dict_none _ _ hone, exceptBindErr]

theorem dos_resolution_witness :
    ((get_dos_from_material_id
      (.dictV [("dos",
        .dictV [("total", .dictV [("1", .dictV [("task_id", .strVl "mp-2")])])])])
      (fun _ => []) "mp-5").2 = [.strVl "mp-2"]) ∧
    (get_dos_from_material_id (.dictV [("dos", .noneV)]) (fun _ => [])
      "mp-5" =
      (.error (.mpRestError ("No density of states data found for " ++
        "mp-5")), [])) ∧
    (get_dos_from_material_id
      (.dictV [("dos", .dictV [("total", .dictV [])])]) (fun _ => [])
      "mp-5" = (.error (.malformedDocument "1"), [])) := by
  refine ⟨?_, ?_, ?_⟩
  · exact (dos_resolution
      [("dos", .dictV [("total", .dictV [("1", .dictV [("task_id", .strVl "mp-2")])])])]
      [("total", .dictV [("1", .dictV [("task_id", .strVl "mp-2")])])]
      [("1", .dictV [("task_id", .strVl "mp-2")])]
      [("task_id", .strVl "mp-2")] (fun _ => []) "mp-5"
      (.strVl "mp-2")).1 rfl rfl rfl rfl
  · exact (dos_resolution [("dos", .noneV)] [] [] [] (fun _ => []) "mp-5"
      .noneV).2.1 rfl
  · exact (dos_resolution [("dos", .dictV [("total", .dictV [])])]
      [("total", .dictV [])] [] [] (fun _ => []) "mp-5" .noneV).2.2 rfl rfl

theorem isNone_eq_false (v : PyVal) (h : v ≠ .noneV) : v.isNone = false := by
  cases hv : v.isNone
  · rfl
  · exact absurd ((isNone_iff v).mp hv) h

/-- C5: The object fetchers raise the "No object found" error if and only
if the store's response lacks a `data` field or that field is null, and
otherwise return the data value; this failure is distinct from every
`NotFound` raised during task resolution on the material document. -/
theorem object_fetch_absence (objStore : PyVal → List (String × PyVal))
    (tid : PyVal) :
    (get_bandstructure_from_task_id objStore tid =
        .error (.mpRestError "No object found") ↔
      ((objStore tid).lookup "data" = none ∨
       (objStore tid).lookup "data" = some .noneV)) ∧
    (∀ v, (objStore tid).lookup "data" = some v → v ≠ .noneV →
      get_bandstructure_from_task_id objStore tid = .ok v) ∧
    (get_dos_from_task_id objStore tid =
        .error (.mpRestError "No object found") ↔
      ((objStore tid).lookup "data" = none ∨
       (objStore tid).lookup "data" = some .noneV)) ∧
    (∀ v, (objStore tid).lookup "data" = some v → v ≠ .noneV →
      get_dos_from_task_id objStore tid = .ok v) ∧
    (∀ (p : BSPathType) (mid : String),
      ("No object found" : String) ≠
        "No " ++ p.value ++ " band structure data found for " ++ mid) ∧
    (∀ mid : String, ("No object found" : String) ≠
      "No uniform band structure data found for " ++ mid) ∧
    (∀ mid : String, ("No object found" : String) ≠
      "No density of states data found for " ++ mid) := by
  have hiff : queryObjData objStore tid =
      .error (.mpRestError "No object found") ↔
      ((objStore tid).lookup "data" = none ∨
       (objStore tid).lookup "data" = some .noneV) := by
    constructor
    · intro h
      cases hl : (objStore tid).lookup "data" with
      | none => exact Or.inl rfl
      | some v =>
        cases hv : v.isNone with
        | true =>
          right
          exact congrArg some ((isNone_iff v).mp hv)
        | false =>
          rw [queryObjData_ok objStore tid v hl hv] at h
          exact absurd h (by simp)
    · intro h
      rcases h with h | h
      · exact queryObjData_err_none objStore tid h
      · exact queryObjData_err_null objStore tid h
  have hok : ∀ v, (objStore tid).lookup "data" = some v → v ≠ .noneV →
      queryObjData objStore tid = .ok v := by
    intro v hl hv
    exact queryObjData_ok objStore tid v hl (isNone_eq_false v hv)
  refine ⟨hiff, hok, hiff, hok, ?_, ?_, ?_⟩
  · intro p mid h
    have hlen := congrArg String.length h
    rw [String.length_append, String.length_append,
      String.length_append] at hlen
    have h1 : ("No object found" : String).length = 15 := by decide
    have h2 : ("No " : String).length = 3 := by decide
    have h3 : (" band structure data found for " : String).length = 31 := by
      decide
    have h4 : 6 ≤ p.value.length := by cases p <;> decide
    omega
  · intro mid h
    have hlen := congrArg String.length h
    rw [String.length_append] at hlen
    have h1 : ("No object found" : String).length = 15 := by decide
    have h2 : ("No uniform band structure data found for " : String).length =
        41 := by decide
    omega
  · intro mid h
    have hlen := congrArg String.length h
    rw [String.length_append] at hlen
    have h1 : ("No object found" : String).length = 15 := by decide
    have h2 : ("No density of states data found for " : String).length =
        36 := by decide
    omega

theorem object_fetch_absence_witness :
    (get_bandstructure_from_task_id (fun _ => []) (.strVl "mp-7") =
      .error (.mpRestError "No object found")) ∧
    (get_bandstructure_from_task_id
      (fun _ => [("data", .listV [.strVl "x"])]) (.strVl "mp-7") =
      .ok (.listV [.strVl "x"])) :=
  ⟨(object_fetch_absence (fun _ => []) (.strVl "mp-7")).1.mpr (Or.inl rfl),
   (object_fetch_absence (fun _ => [("data", .listV [.strVl "x"])])
     (.strVl "mp-7")).2.1 (.listV [.strVl "x"]) rfl (fun h => nomatch h)⟩

/-- C6: For every input string containing characters outside the base64
alphabet, or incorrectly padded (wrong length, a pad followed by two or
more characters, or a penultimate pad without a final pad), the decode
stage fails with the malformed-encoding error — strict, not lenient — and
never returns a truncated or partial decoded object. -/
theorem strict_base64 (s : List Char)
    (hbad : (∃ c ∈ s, b64sext c = none ∧ c ≠ '=') ∨
            s.length % 4 ≠ 0 ∨
            (∃ l r, s = l ++ '=' :: r ∧ 2 ≤ r.length) ∨
            (∃ l c, s = l ++ ['=', c] ∧ c ≠ '=')) :
    decodeChain s = .error .malformedEncoding := by
  have hnone : b64decodeStrict s = none := by
    cases hb : b64decodeStrict s with
    | none => rfl
    | some out =>
      exfalso
      rcases hbad with ⟨c, hc, hno, hne⟩ | hlen | ⟨l, r, heq, hr⟩ |
        ⟨l, c, heq, hne⟩
      · rcases b64decodeStrict_chars s out hb c hc with h | h
        · rw [hno] at h
          simp at h
        · exact hne h
      · exact hlen (b64decodeStrict_length s out hb)
      · exact b64decodeStrict_pad_final s out hb ⟨l, r, heq, hr⟩
      · exact hne (b64decodeStrict_pad_pair s out hb l c heq)
  simp only [decodeChain, hnone]

theorem strict_base64_witness :
    decodeChain ['a', 'b', '!', 'c'] = .error .malformedEncoding :=
  strict_base64 ['a', 'b', '!', 'c'] (Or.inl (by decide))

/-- C7: For every material id whose document has `bandstructure = null`, a
line-mode call to `get_bandstructure_from_material_id` fails with the
error message naming both the path type and the material id, and no fetch
against the object store is issued during that call (the fetch trace is
empty). -/
theorem null_bandstructure_no_fetch (dosField : PyVal)
    (objStore : PyVal → List (String × PyVal)) (mid : String)
    (p : BSPathType) :
    get_bandstructure_from_material_id .noneV dosField objStore mid p true =
      (.error (.mpRestError ("No " ++ p.value ++
        " band structure data found for " ++ mid)), []) := by
  have h : resolveBsTask .noneV dosField mid p true =
      .error (.mpRestError ("No " ++ p.value ++
        " band structure data found for " ++ mid)) := rfl
  simp only [get_bandstructure_from_material_id, h]

/-- C8: The decode chain is all-or-nothing: a failure at any stage
(base64, zlib, msgpack, extraction/reconstruction) aborts the whole decode
with that stage's single tagged error, and a successful decode implies
every stage succeeded with the final stage's output returned. -/
theorem decode_all_or_nothing (s : List Char) :
    (b64decodeStrict s = none → decodeChain s = .error .malformedEncoding) ∧
    (∀ b, b64decodeStrict s = some b → zlibDecompress b = none →
      decodeChain s = .error .decompressionError) ∧
    (∀ b p, b64decodeStrict s = some b → zlibDecompress b = some p →
      msgUnpack p = none → decodeChain s = .error .deserializationError) ∧
    (∀ b p j e, b64decodeStrict s = some b → zlibDecompress b = some p →
      msgUnpack p = some j → extractAndReconstruct j = .error e →
      decodeChain s = .error (.reconstructionError e)) ∧
    (∀ v, decodeChain s = .ok v →
      ∃ b p j, b64decodeStrict s = some b ∧ zlibDecompress b = some p ∧
        msgUnpack p = some j ∧ extractAndReconstruct j = .ok v) := by
  refine ⟨?_, ?_, ?_, ?_, ?_⟩
  · intro h
    simp only [decodeChain, h]
  · intro b h1 h2
    simp only [decodeChain, h1, h2]
  · intro b p h1 h2 h3
    simp only [decodeChain, h1, h2, h3]
  · intro b p j e h1 h2 h3 h4
    simp only [decodeChain, h1, h2, h3, h4]
  · intro v hok
    cases h1 : b64decodeStrict s with
    | none =>
      simp only [decodeChain, h1] at hok
      exact Except.noConfusion hok
    | some b =>
      cases h2 : zlibDecompress b with
      | none =>
        simp only [decodeChain, h1, h2] at hok
        exact Except.noConfusion hok
      | some p =>
        cases h3 : msgUnpack p with
        | none =>
          simp only [decodeChain, h1, h2, h3] at hok
          exact Except.noConfusion hok
        | some j =>
          cases h4 : extractAndReconstruct j with
          | error e =>
            simp only [decodeChain, h1, h2, h3, h4] at hok
            exact Except.noConfusion hok
          | ok v' =>
            simp only [decodeChain, h1, h2, h3, h4, Except.ok.injEq] at hok
            subst hok
            exact ⟨b, p, j, rfl, h2, h3, h4⟩

theorem decode_all_or_nothing_witness :
    decodeChain ['Q'] = .error .malformedEncoding :=
  (decode_all_or_nothing ['Q']).1 (b64decodeStrict_one 'Q')

/-- C9: In line-mode resolution, presence of the `path_type` key is tested
by truthiness, not key membership: a document whose bandstructure mapping
maps the requested path type to a falsy value (an empty mapping or null)
raises the same not-found error as when the key is absent, instead of
attempting `task_id` extraction. -/
theorem falsy_path_entry (bsDict : List (String × PyVal)) (dosField : PyVal)
    (mid : String) (p : BSPathType) (v : PyVal)
    (hlook : bsDict.lookup p.value = some v) (hfalsy : v.truthy = false) :
    resolveBsTask (.dictV bsDict) dosField mid p true =
      .error (.mpRestError ("No " ++ p.value ++
        " band structure data found for " ++ mid)) ∧
    (∀ bsDict' : List (String × PyVal), bsDict'.lookup p.value = none →
      resolveBsTask (.dictV bsDict) dosField mid p true =
        resolveBsTask (.dictV bsDict') dosField mid p true) := by
  have h1 := resolveBsTask_line_falsy bsDict dosField mid p v hlook hfalsy
  refine ⟨h1, ?_⟩
  intro bsDict' habs
  rw [h1, resolveBsTask_line_absent bsDict' dosField mid p habs]

theorem falsy_path_entry_witness :
    resolveBsTask (.dictV [("hinuma", .dictV [])]) .noneV "mp-8" .hinuma
        true =
      .error (.mpRestError ("No " ++ BSPathType.hinuma.value ++
        " band structure data found for " ++ "mp-8")) ∧
    resolveBsTask (.dictV [("hinuma", .dictV [])]) .noneV "mp-8" .hinuma
        true =
      resolveBsTask (.dictV []) .noneV "mp-8" .hinuma true := by
  have h := falsy_path_entry [("hinuma", .dictV [])] .noneV "mp-8" .hinuma
    (.dictV []) rfl rfl
  exact ⟨h.1, h.2 [] rfl⟩

/-- C10: The orchestrators contain a second absence guard distinct from
the fetcher's: for an object-store response whose `data` field is non-null
but falsy (an empty list), the task-id fetchers return it without error,
and the material-id orchestrators then fail with the distinct errors
"No band structure object found." / "No density of states object found."
rather than "No object found". -/
theorem falsy_object_guard
    (bsDict entry docDict dosDict t1 e1 : List (String × PyVal))
    (dosField : PyVal) (objStore : PyVal → List (String × PyVal))
    (mid : String) (p : BSPathType) (tidB tidD : PyVal)
    (hlookB : bsDict.lookup p.value = some (.dictV entry))
    (htidB : entry.lookup "task_id" = some tidB)
    (hstoreB : (objStore tidB).lookup "data" = some (.listV []))
    (hdos : docDict.lookup "dos" = some (.dictV dosDict))
    (htotal : dosDict.lookup "total" = some (.dictV t1))
    (hone : t1.lookup "1" = some (.dictV e1))
    (htidD : e1.lookup "task_id" = some tidD)
    (hstoreD : (objStore tidD).lookup "data" = some (.listV [])) :
    get_bandstructure_from_task_id objStore tidB = .ok (.listV []) ∧
    get_bandstructure_from_material_id (.dictV bsDict) dosField objStore
      mid p true =
      (.error (.mpRestError "No band structure object found."), [tidB]) ∧
    get_dos_from_task_id objStore tidD = .ok (.listV []) ∧
    get_dos_from_material_id (.dictV docDict) objStore mid =
      (.error (.mpRestError "No density of states object found."), [tidD]) ∧
    ("No band structure object found." : String) ≠ "No object found" ∧
    ("No density of states object found." : String) ≠ "No object found" := by
  have hfetchB : get_bandstructure_from_task_id objStore tidB =
      .ok (.listV []) := queryObjData_ok _ _ _ hstoreB rfl
  have hfetchD : get_dos_from_task_id objStore tidD = .ok (.listV []) :=
    queryObjData_ok _ _ _ hstoreD rfl
  have hresB := resolveBsTask_line_ok bsDict entry dosField mid p tidB
    hlookB htidB
  have htr : (PyVal.listV []).truthy = false := rfl
  have htruthyDos : (PyVal.dictV dosDict).truthy = true :=
    truthy_dict_of_lookup _ _ _ htotal
  refine ⟨hfetchB, ?_, hfetchD, ?_, by decide, by decide⟩
  · simp only [get_bandstructure_from_material_id, hresB, hfetchB, htr,
      Bool.false_eq_true, if_false]
  · simp only [get_dos_from_material_id, pyIndex_dict _ _ _ hdos,
      htruthyDos, if_true, pyIndex_dict _ _ _ htotal, exceptBindOk,
      pyIndex_dict _ _ _ hone, pyIndex_dict _ _ _ htidD,
      fetchAndDecodeDos, hfetchD, htr, Bool.false_eq_true, if_false]

theorem falsy_object_guard_witness :
    get_bandstructure_from_task_id
      (fun _ => [("data", .listV [])]) (.strVl "mp-1") = .ok (.listV []) ∧
    get_bandstructure_from_material_id
      (.dictV [("setyawan_curtarolo", .dictV [("task_id", .strVl "mp-1")])])
      .noneV (fun _ => [("data", .listV [])]) "mp-9" .setyawan_curtarolo
      true =
      (.error (.mpRestError "No band structure object found."),
       [.strVl "mp-1"]) ∧
    get_dos_from_task_id
      (fun _ => [("data", .listV [])]) (.strVl "mp-2") = .ok (.listV []) ∧
    get_dos_from_material_id
      (.dictV [("dos",
        .dictV [("total", .dictV [("1", .dictV [("task_id", .strVl "mp-2")])])])])
      (fun _ => [("data", .listV [])]) "mp-9" =
      (.error (.mpRestError "No density of states object found."),
       [.strVl "mp-2"]) ∧
    ("No band structure object found." : String) ≠ "No object found" ∧
    ("No density of states object found." : String) ≠ "No object found" := by
  have h := falsy_object_guard
    [("setyawan_curtarolo", .dictV [("task_id", .strVl "mp-1")])]
    [("task_id", .strVl "mp-1")]
    [("dos",
      .dictV [("total", .dictV [("1", .dictV [("task_id", .strVl "mp-2")])])])]
    [("total", .dictV [("1", .dictV [("task_id", .strVl "mp-2")])])]
    [("1", .dictV [("task_id", .strVl "mp-2")])]
    [("task_id", .strVl "mp-2")]
    .noneV (fun _ => [("data", .listV [])]) "mp-9" .setyawan_curtarolo
    (.strVl "mp-1") (.strVl "mp-2")
    rfl rfl rfl rfl rfl rfl rfl rfl
  exact h

end MpApi
